import Mathlib

/-!
Verification of stalkerhek: a shallow embedding of the portal client, the
retry executor, the HLS start-up and the dashboard registries.

Go code is embedded as pure functions.  Package-level variables become fields
of an explicit state that is passed in and returned.  Calls into libraries
(HTTP round trips, `json.Unmarshal`) and into functions of the `stalker`
package whose bodies are elsewhere (`httpRequest`, `Start`,
`RetrieveChannels`) are inputs of the functions that consume their results.
-/

namespace Stalkerhek

/-- A Go `error` is represented by its message; the nil error is `none`. -/
abbrev GoError := String

/-- How a Go function call ends: it returns (here: its `error` result), or the
goroutine panics. -/
inductive Completion where
  | returned (err : Option GoError)
  | panicked (msg : String)
  deriving DecidableEq, Repr

/-- The dynamic values `encoding/json` stores into an `interface{}`. -/
inductive GoValue where
  | nil
  | bool (b : Bool)
  | float64 (x : ℚ)
  | string (s : String)
  | slice (xs : List GoValue)
  | map (kvs : List (String × GoValue))

namespace GoValue

/-- The dynamic type's name, as the runtime prints it in a failed type
assertion. -/
def typeName : GoValue → String
  | .nil => "nil"
  | .bool _ => "bool"
  | .float64 _ => "float64"
  | .string _ => "string"
  | .slice _ => "[]interface \x7b\x7d"
  | .map _ => "map[string]interface \x7b\x7d"

/-- Comparison `v == s` of an interface value with a string constant: true
exactly when the dynamic type is `string` and the values agree. -/
def eqString : GoValue → String → Bool
  | .string t, s => t == s
  | _, _ => false

end GoValue

/-- A Go `map[κ]α` as an association list with at most one entry per key. -/
abbrev GoMap (κ α : Type) := List (κ × α)

namespace GoMap

variable {κ α : Type} [DecidableEq κ]

/-- The lookup `v, ok := m[k]`; `none` stands for `ok == false`. -/
def get : GoMap κ α → κ → Option α
  | [], _ => none
  | (k1, v1) :: rest, k => if k1 = k then some v1 else get rest k

/-- The assignment `m[k] = v`. -/
def set : GoMap κ α → κ → α → GoMap κ α
  | [], k, v => [(k, v)]
  | (k1, v1) :: rest, k, v => if k1 = k then (k, v) :: rest else (k1, v1) :: set rest k v

/-- The statement `delete(m, k)`. -/
def delete : GoMap κ α → κ → GoMap κ α
  | [], _ => []
  | (k1, v1) :: rest, k => if k1 = k then delete rest k else (k1, v1) :: delete rest k

end GoMap

/-- The outcome of the HTTP round trip of one portal action, followed by
`json.Unmarshal(contents, &tmp)` when a body was read. -/
inductive Exchange (T : Type) where
  /-- Building the request, sending it or reading the body returned `err`. -/
  | failed (err : GoError)
  /-- The body `contents` was read; `decoded` is what `json.Unmarshal` made of
  it: its error, or the filled `tmp`. -/
  | received (contents : String) (decoded : Except GoError T)

namespace stalker

/-- Portal represents Stalker portal (`fs.go`). -/
structure Portal where
  Model : String
  SerialNumber : String
  DeviceID : String
  DeviceID2 : String
  Signature : String
  MAC : String
  Username : String
  Password : String
  Location : String
  TimeZone : String
  Token : String
  WatchDogTime : Int
  DeviceIdAuth : Bool
  deriving DecidableEq, Repr

/-- The result of running one method of `*Portal`: the receiver afterwards,
the lines written to the log, and how the call ended. -/
structure Run where
  portal : Portal
  log : List String
  completion : Completion
  deriving DecidableEq, Repr

/-- The local `tmpStruct` of `handshake`: `Js map[string]interface{}`.  A nil
map and an empty map are both the empty list (reads cannot tell them apart). -/
structure handshake.tmpStruct where
  Js : GoMap String GoValue

/-- The local `tmpStruct` of `authenticate`. -/
structure authenticate.tmpStruct where
  Js : Bool
  Text : String
  deriving DecidableEq, Repr

/-- The local `tmpStruct` of `authenticateWithDeviceIDs`; `Id` and `Fname`
are the fields of the nested `Js` struct. -/
structure authenticateWithDeviceIDs.tmpStruct where
  Id : String
  Fname : String
  Text : String
  deriving DecidableEq, Repr

/-- Method `(p *Portal) handshake()` of `authentication.go`. -/
def handshake (p : Portal) (x : Exchange handshake.tmpStruct) : Run :=
  match x with
  | .failed err => ⟨p, [], .returned (some err)⟩
  | .received contents (.error err) =>
    -- log.Println(string(contents)); return err
    ⟨p, [contents], .returned (some err)⟩
  | .received _ (.ok tmp) =>
    -- token, ok := tmp.Js["token"]
    match GoMap.get tmp.Js "token" with
    | none => ⟨p, [], .returned none⟩
    | some token =>
      if token.eqString "" then
        -- Token accepted. Using accepted token
        ⟨p, [], .returned none⟩
      else
        -- p.Token = token.(string)
        match token with
        | .string s => ⟨{ p with Token := s }, [], .returned none⟩
        | v =>
          ⟨p, [], .panicked
            ("interface conversion: interface \x7b\x7d is " ++ v.typeName ++ ", not string")⟩

/-- Method `(p *Portal) authenticate()` of `authentication.go`; `x` is the
outcome of `p.httpRequest` and of decoding its content. -/
def authenticate (p : Portal) (x : Exchange authenticate.tmpStruct) : Run :=
  match x with
  | .failed err => ⟨p, ["HTTP authentication request failed"], .returned (some err)⟩
  | .received _ (.error err) =>
    ⟨p, ["parsing authentication response failed"], .returned (some err)⟩
  | .received _ (.ok tmp) =>
    if tmp.Js then
      ⟨p, ["Logging in to Stalker says:", tmp.Text], .returned none⟩
    else
      ⟨p, ["Logging in to Stalker says:", tmp.Text], .returned (some "invalid credentials")⟩

/-- Method `(p *Portal) authenticateWithDeviceIDs()` of `authentication.go`. -/
def authenticateWithDeviceIDs (p : Portal)
    (x : Exchange authenticateWithDeviceIDs.tmpStruct) : Run :=
  match x with
  | .failed err =>
    ⟨p, ["Authenticating with DeviceId and DeviceId2", "HTTP authentication request failed"],
      .returned (some err)⟩
  | .received _ (.error err) =>
    ⟨p, ["Authenticating with DeviceId and DeviceId2", "Unexpected authentication response"],
      .returned (some err)⟩
  | .received _ (.ok tmp) =>
    if tmp.Id ≠ "" then
      ⟨p, ["Authenticating with DeviceId and DeviceId2", "Logging in to Stalker says:", tmp.Text,
          "Authenticated as " ++ tmp.Fname], .returned none⟩
    else
      ⟨p, ["Authenticating with DeviceId and DeviceId2", "Logging in to Stalker says:", tmp.Text],
        .returned (some "invalid credentials")⟩

/-- RetryConfig for retry logic (`fs.go`).  `BaseDelay` and `MaxDelay` are
`time.Duration` values: a count of nanoseconds. -/
structure RetryConfig where
  MaxRetries : Int
  BaseDelay : Int
  MaxDelay : Int
  deriving DecidableEq, Repr

/-- The `float64` values that the delay computation of `RetryWithBackoff` can
produce: finite values that are whole numbers, the infinities and NaN. -/
inductive Float64 where
  | finite (v : Int)
  | posInf
  | negInf
  | nan
  deriving DecidableEq, Repr

/-- Number of low bits a magnitude loses when it is stored in the 53-bit
significand of a `float64` (`fuel` bounds the search; the magnitude itself is
always enough). -/
def droppedBits : Nat → Nat → Nat
  | 0, _ => 0
  | fuel + 1, m => if m < 2 ^ 53 then 0 else droppedBits fuel (m / 2) + 1

/-- Round a magnitude to the nearest number with at most 53 significant bits,
ties to the even significand. -/
def roundMagnitude (m : Nat) : Nat :=
  let e := droppedBits m m
  let q := m / 2 ^ e
  let r := m % 2 ^ e
  if 2 * r > 2 ^ e ∨ (2 * r = 2 ^ e ∧ q % 2 = 1) then (q + 1) * 2 ^ e else q * 2 ^ e

/-- The conversion `float64(n)` of an integer: the nearest `float64`. -/
def roundToFloat64 (n : Int) : Int :=
  if n < 0 then -((roundMagnitude n.natAbs : Nat) : Int) else ((roundMagnitude n.natAbs : Nat) : Int)

/-- The product `float64(base) * math.Pow(2, float64(attempt))` for a loop
counter `attempt ≥ 0`.  `math.Pow(2, k)` is exactly `2^k` up to `k = 1023` and
`+Inf` above; multiplying by a power of two is exact unless the result leaves
the range of `float64`, whose finite values lie below `2^1024 = (2^256)^4`. -/
def scaledDelay (base : Int) (attempt : Nat) : Float64 :=
  let m := roundToFloat64 base
  if attempt ≤ 1023 then
    if (m * 2 ^ attempt).natAbs < (2 ^ 256) ^ 4 then .finite (m * 2 ^ attempt)
    else if 0 < m then .posInf else .negInf
  else if m = 0 then .nan
  else if 0 < m then .posInf else .negInf

/-- The conversion `time.Duration(x)` of a `float64` to `int64`.  Where the
value is not representable the result is implementation-dependent: it is
`outOfRange x`. -/
def toDuration (outOfRange : Float64 → Int) : Float64 → Int
  | .finite v => if -2 ^ 63 ≤ v ∧ v < 2 ^ 63 then v else outOfRange (.finite v)
  | x => outOfRange x

/-- The value of `delay` that `RetryWithBackoff` passes to `time.Sleep` after
the failed attempt number `attempt`. -/
def backoffDelay (outOfRange : Float64 → Int) (config : RetryConfig) (attempt : Nat) : Int :=
  let delay := toDuration outOfRange (scaledDelay config.BaseDelay attempt)
  if delay > config.MaxDelay then config.MaxDelay else delay

/-- What `RetryWithBackoff` does that can be observed from outside. -/
inductive RetryEvent where
  /-- One call `fn()` and the error it returned. -/
  | invoked (err : Option GoError)
  /-- One call `time.Sleep(delay)`. -/
  | slept (delay : Int)
  deriving DecidableEq, Repr

/-- One run of `RetryWithBackoff`: the returned error, the state of the
operation afterwards, and the calls of `fn` and `time.Sleep` in order. -/
structure RetryRun (σ : Type) where
  err : Option GoError
  state : σ
  trace : List RetryEvent

/-- Number of times the operation was invoked. -/
def RetryRun.calls {σ : Type} (r : RetryRun σ) : Nat :=
  r.trace.countP (fun ev => match ev with | .invoked _ => true | .slept _ => false)

/-- The arguments of the calls of `time.Sleep`, in order. -/
def RetryRun.sleeps {σ : Type} (r : RetryRun σ) : List Int :=
  r.trace.filterMap (fun ev => match ev with | .invoked _ => none | .slept d => some d)

/-- The `for` loop of `RetryWithBackoff`, entered with the loop counter
`attempt` and the current `lastErr`.  The operation `fn` is a function of the
state `σ` it reads and writes.  `fuel` bounds the number of iterations; `none`
means the fuel ran out. -/
def retryLoop {σ : Type} (outOfRange : Float64 → Int) (config : RetryConfig)
    (fn : σ → Option GoError × σ) : Nat → Nat → Option GoError → σ → Option (RetryRun σ)
  | 0, attempt, lastErr, st =>
    if (attempt : Int) < config.MaxRetries then none else some ⟨lastErr, st, []⟩
  | fuel + 1, attempt, lastErr, st =>
    if (attempt : Int) < config.MaxRetries then
      match fn st with
      | (none, st1) => some ⟨none, st1, [.invoked none]⟩
      | (some err, st1) =>
        let sleep : List RetryEvent :=
          if (attempt : Int) < config.MaxRetries - 1 then
            [.slept (backoffDelay outOfRange config attempt)]
          else []
        (retryLoop outOfRange config fn fuel (attempt + 1) (some err) st1).map
          (fun r => { r with trace := .invoked (some err) :: (sleep ++ r.trace) })
    else some ⟨lastErr, st, []⟩

/-- RetryWithBackoff executes a function with exponential backoff retry
(`fs.go`).  The loop runs at most `MaxRetries` times, which is the fuel.  The
line that `log.Printf` writes before each sleep is left out. -/
def RetryWithBackoff {σ : Type} (outOfRange : Float64 → Int) (config : RetryConfig)
    (fn : σ → Option GoError × σ) (st : σ) : Option (RetryRun σ) :=
  retryLoop outOfRange config fn config.MaxRetries.toNat 0 none st

/-- An operation given by the sequence of its outcomes: the state is the
number of calls made so far, and call number `n` returns `outs n`. -/
def seqOp (outs : Nat → Option GoError) : Nat → Option GoError × Nat :=
  fun n => (outs n, n + 1)

/-- The anonymous struct type of `Config.HLS` (`fs.go`). -/
structure HLSConfig where
  Enabled : Bool
  Bind : String
  deriving DecidableEq, Repr

/-- The anonymous struct type of `Config.Proxy` (`fs.go`). -/
structure ProxyConfig where
  Enabled : Bool
  Bind : String
  Rewrite : Bool
  deriving DecidableEq, Repr

/-- Config contains configuration taken from the YAML file (`fs.go`). -/
structure Config where
  Portal : stalker.Portal
  HLS : HLSConfig
  Proxy : ProxyConfig
  deriving DecidableEq, Repr

/-- Modelled from the spec: the declaration of `stalker.Channel` is not among
the sources.  A channel carries a name, a genre, a logo reference and an
upstream playback reference; the methods `Logo()` and `Genre()` that
`hls.StartWithContext` calls return the logo reference and the genre. -/
structure Channel where
  name : String
  genre : String
  logo : String
  cmd : String
  deriving DecidableEq, Repr

/-- The method `Logo()` of `*stalker.Channel`. -/
def Channel.Logo (c : Channel) : String := c.logo

/-- The method `Genre()` of `*stalker.Channel`. -/
def Channel.Genre (c : Channel) : String := c.genre

/-- The catalog type `map[string]*stalker.Channel`.  The order of the list is
the order in which a `range` loop visits the entries. -/
abbrev Catalog := GoMap String Channel

/-- The character class `[A-F0-9]` of `regexMAC`. -/
def isUpperHexDigit (c : Char) : Bool :=
  ('A' ≤ c && c ≤ 'F') || ('0' ≤ c && c ≤ '9')

/-- One group `[A-F0-9]{2}` at the head of the text: the text after it, or
`none` when the head does not match. -/
def matchHexPair : List Char → Option (List Char)
  | a :: b :: rest => if isUpperHexDigit a && isUpperHexDigit b then some rest else none
  | _ => none

/-- One group `:[A-F0-9]{2}` at the head of the text. -/
def matchColonHexPair : List Char → Option (List Char)
  | c :: rest => if c = ':' then matchHexPair rest else none
  | [] => none

/-- The call `regexMAC.MatchString(s)` for the pattern
`^[A-F0-9]{2}:[A-F0-9]{2}:[A-F0-9]{2}:[A-F0-9]{2}:[A-F0-9]{2}:[A-F0-9]{2}$`
(`fs.go`): six groups, and nothing after them. -/
def regexMAC (s : String) : Bool :=
  match (((((matchHexPair s.data).bind matchColonHexPair).bind matchColonHexPair).bind
      matchColonHexPair).bind matchColonHexPair).bind matchColonHexPair with
  | some [] => true
  | _ => false

/-- The character class `[a-zA-Z]` of `regexTimezone`. -/
def isAsciiLetter (c : Char) : Bool :=
  ('a' ≤ c && c ≤ 'z') || ('A' ≤ c && c ≤ 'Z')

/-- The call `regexTimezone.MatchString(s)` for the pattern
`^[a-zA-Z]+/[a-zA-Z]+$` (`fs.go`).  The first `+` takes every leading letter,
as a slash is not a letter. -/
def regexTimezone (s : String) : Bool :=
  match s.data.span isAsciiLetter with
  | (area, c :: location) =>
    !area.isEmpty && c = '/' && !location.isEmpty && location.all isAsciiLetter
  | (_, []) => false

/-- The call `strings.ToUpper(s)`: an ASCII character is mapped to its upper
case, and `upperRune` is `unicode.ToUpper` on the other characters. -/
def ToUpper (upperRune : Char → Char) (s : String) : String :=
  String.mk (s.data.map (fun c => if c.val < 128 then c.toUpper else upperRune c))

/-- Method `(c *Config) validateWithDefaults()` of `fs.go`: the returned error
and the configuration afterwards.  `randomToken` is the string that the call
`randomToken()` returns.  The receiver and its `Portal` pointer are not nil
(`Config.Nilable.validateWithDefaults` below is the method with pointers that
may be nil); log lines are left out. -/
def validateWithDefaults (upperRune : Char → Char) (randomToken : String) (c : Config) :
    Option GoError × Config :=
  let c1 : Config := { c with Portal := { c.Portal with MAC := ToUpper upperRune c.Portal.MAC } }
  if c1.Portal.Model = "" then (some "empty model", c1)
  else if c1.Portal.SerialNumber = "" then (some "empty serial number (sn)", c1)
  else if c1.Portal.DeviceID = "" then (some "empty device_id", c1)
  else if c1.Portal.DeviceID2 = "" then (some "empty device_id2", c1)
  else if !regexMAC c1.Portal.MAC then (some ("invalid MAC \x27" ++ c1.Portal.MAC ++ "\x27"), c1)
  else if c1.Portal.Location = "" then (some "empty portal url", c1)
  else if !regexTimezone c1.Portal.TimeZone then
    (some ("invalid timezone \x27" ++ c1.Portal.TimeZone ++ "\x27"), c1)
  else if !c1.HLS.Enabled && !c1.Proxy.Enabled then (some "no services enabled", c1)
  else if c1.HLS.Enabled && c1.HLS.Bind = "" then (some "empty HLS bind", c1)
  else if c1.Proxy.Enabled && c1.Proxy.Bind = "" then (some "empty proxy bind", c1)
  else if c1.Proxy.Rewrite && !c1.HLS.Enabled then
    (some "HLS service must be enabled for \x27proxy: rewrite\x27", c1)
  else
    let c2 : Config :=
      if c1.Portal.Token = "" then { c1 with Portal := { c1.Portal with Token := randomToken } }
      else c1
    let c3 : Config :=
      if c2.Portal.WatchDogTime = 1 then { c2 with Portal := { c2.Portal with WatchDogTime := 2 } }
      else c2
    (none, c3)

/-- Specification of a well-formed MAC: exactly six groups of two hexadecimal
digits (`0-9`, `A-F`), separated by colons. -/
def SixHexGroups (s : String) : Prop :=
  ∃ groups : List (List Char), groups.length = 6 ∧
    (∀ g ∈ groups, g.length = 2 ∧ ∀ c ∈ g, isUpperHexDigit c = true) ∧
    s.data = [':'].intercalate groups

end stalker

namespace hls

/-- A `sync.Mutex`; a new one is unlocked. -/
structure Mutex where
  locked : Bool
  deriving DecidableEq, Repr

/-- The type `Logo` of package `hls`, with the fields that `StartWithContext`
sets. -/
structure Logo where
  Mux : Mutex
  Link : String
  deriving DecidableEq, Repr

/-- The type `Channel` of package `hls`, with the fields that
`StartWithContext` sets. -/
structure Channel where
  StalkerChannel : stalker.Channel
  Mux : Mutex
  Logo : hls.Logo
  Genre : String
  deriving DecidableEq, Repr

/-- The package-level variables of `hls.go`.  The request handlers registered
by `StartWithContext` are package-level functions of `(w, r)`: these two
variables are all they can read of the catalog. -/
structure Globals where
  playlist : GoMap String Channel
  sortedChannels : List String
  deriving DecidableEq, Repr

/-- The call `sort.Strings(a)`: ascending order of strings.  Go compares
strings byte by byte; on UTF-8 text that is the lexicographic order of the
code points, the order of the character lists. -/
def sortStrings (a : List String) : List String :=
  a.insertionSort (fun x y => x.data ≤ y.data)

/-- The `range chs` loop of `StartWithContext`, from the variables as they
are on entry of the loop. -/
def fillPlaylist (g : Globals) : stalker.Catalog → Globals
  | [] => g
  | (k, v) :: rest =>
    fillPlaylist
      { playlist := GoMap.set g.playlist k
          { StalkerChannel := v, Mux := ⟨false⟩, Logo := ⟨⟨false⟩, v.Logo⟩, Genre := v.Genre },
        sortedChannels := g.sortedChannels ++ [k] }
      rest

/-- StartWithContext starts main routine with graceful shutdown support
(`hls.go`): the statements up to `sort.Strings(sortedChannels)`, as a function
of the package-level variables.  What follows them serves requests from
these variables until `ctx` is cancelled and assigns neither of them. -/
def StartWithContext (_g : Globals) (_ctx : Nat) (chs : stalker.Catalog) (_bind : String) :
    Globals :=
  let g1 := fillPlaylist { playlist := [], sortedChannels := [] } chs
  { g1 with sortedChannels := sortStrings g1.sortedChannels }

end hls

namespace webui

/-- Profile represents a user-defined configuration profile (`profiles.go`). -/
structure Profile where
  ID : Int
  Name : String
  PortalURL : String
  MAC : String
  HlsPort : Int
  ProxyPort : Int
  deriving DecidableEq, Repr

/-- ProfileStatus represents per-profile status in dashboard
(`profile_status.go`). -/
structure ProfileStatus where
  ID : Int
  Name : String
  Phase : String
  Message : String
  Channels : Int
  HLS : String
  Proxy : String
  Running : Bool
  deriving DecidableEq, Repr

/-- The zero value of `ProfileStatus`, which reading a missing key of
`pstate` yields. -/
def ProfileStatus.zero : ProfileStatus :=
  { ID := 0, Name := "", Phase := "", Message := "", Channels := 0, HLS := "", Proxy := "",
    Running := false }

/-- A `context.CancelFunc`, identified by the number of the context it
cancels. -/
abbrev CancelFunc := Nat

/-- The type `runner` of `runtime.go`. -/
structure runner where
  cancel : CancelFunc
  deriving DecidableEq, Repr

/-- A goroutine started by a `go` statement of `StartProfileServices`, with
the arguments of the server function it runs. -/
inductive Goroutine where
  /-- The call `hls.StartWithContext(pCtx, channels, cfg.HLS.Bind)`. -/
  | hlsServer (ctx : Nat) (channels : stalker.Catalog) (bind : String)
  /-- The call `proxy.StartWithContext(pCtx, cfg, channels)`. -/
  | proxyServer (ctx : Nat) (cfg : stalker.Config) (channels : stalker.Catalog)
  deriving DecidableEq, Repr

/-- The package-level variables of `webui` (`profiles`, `nextProfile`,
`pstate`, `runners`) and the part of the environment its functions act on:
the contexts created so far, the calls of cancel functions, and the
goroutines started. -/
structure State where
  profiles : List Profile
  nextProfile : Int
  pstate : GoMap Int ProfileStatus
  runners : GoMap Int runner
  contexts : Nat
  cancelCalls : List CancelFunc
  goroutines : List Goroutine
  deriving DecidableEq, Repr

/-- The state at program start: the initial values of the package-level
variables, no context created, nothing cancelled, nothing started. -/
def State.init : State :=
  { profiles := [], nextProfile := 1, pstate := [], runners := [], contexts := 0,
    cancelCalls := [], goroutines := [] }

/-- GetProfileStatus returns the current status for a profile ID
(`profile_status.go`). -/
def GetProfileStatus (s : State) (id : Int) : ProfileStatus :=
  match GoMap.get s.pstate id with
  | none =>
    { ID := id, Name := "", Phase := "idle", Message := "Unknown", Channels := 0, HLS := "",
      Proxy := "", Running := false }
  | some st => st

/-- The read `s := pstate[id]`: the entry, or the zero value. -/
def pstateAt (s : State) (id : Int) : ProfileStatus :=
  (GoMap.get s.pstate id).getD ProfileStatus.zero

/-- Function `SetProfileValidating` of `profile_status.go`. -/
def SetProfileValidating (s : State) (id : Int) (name msg : String) : State :=
  let st : ProfileStatus :=
    { pstateAt s id with ID := id, Name := name, Phase := "validating", Message := msg }
  { s with pstate := GoMap.set s.pstate id st }

/-- Function `SetProfileError` of `profile_status.go`. -/
def SetProfileError (s : State) (id : Int) (name msg : String) : State :=
  let st : ProfileStatus :=
    { pstateAt s id with
      ID := id, Name := name, Phase := "error", Message := msg, Running := false }
  { s with pstate := GoMap.set s.pstate id st }

/-- Function `SetProfileSuccess` of `profile_status.go`. -/
def SetProfileSuccess (s : State) (id : Int) (name : String) (channels : Int)
    (hls proxy : String) (running : Bool) : State :=
  let st : ProfileStatus :=
    { ID := id, Name := name, Phase := "success", Message := "Verified", Channels := channels,
      HLS := hls, Proxy := proxy, Running := running }
  { s with pstate := GoMap.set s.pstate id st }

/-- Function `SetProfileStopped` of `profile_status.go`. -/
def SetProfileStopped (s : State) (id : Int) : State :=
  let st : ProfileStatus :=
    { pstateAt s id with Phase := "idle", Message := "Stopped", Running := false }
  { s with pstate := GoMap.set s.pstate id st }

/-- RegisterRunner registers a cancel func for a profile ID (`runtime.go`). -/
def RegisterRunner (s : State) (id : Int) (cancel : CancelFunc) : State :=
  { s with runners := GoMap.set s.runners id { cancel := cancel } }

/-- StopRunner stops a running profile by ID (`runtime.go`): the returned
error and the state afterwards. -/
def StopRunner (s : State) (id : Int) : Option GoError × State :=
  match GoMap.get s.runners id with
  | none => (some "runner not found", s)
  | some r =>
    (none, { s with runners := GoMap.delete s.runners id,
                    cancelCalls := s.cancelCalls ++ [r.cancel] })

/-- IsRunning checks if profile is registered (`runtime.go`). -/
def IsRunning (s : State) (id : Int) : Bool :=
  (GoMap.get s.runners id).isSome

/-- The call `strings.Repeat("f", 64)`. -/
def repeatF64 : String := String.mk (List.replicate 64 'f')

/-- The configuration `cfg` that `StartProfileServices` builds for a
profile. -/
def profileConfig (p : Profile) : stalker.Config :=
  { Portal :=
      { Model := "MAG254", SerialNumber := "0000000000000", DeviceID := repeatF64,
        DeviceID2 := repeatF64, Signature := repeatF64, MAC := p.MAC, Username := "",
        Password := "", Location := p.PortalURL, TimeZone := "UTC", Token := "",
        WatchDogTime := 5, DeviceIdAuth := true },
    HLS := { Enabled := true, Bind := "0.0.0.0:" ++ toString p.HlsPort },
    Proxy := { Enabled := true, Bind := "0.0.0.0:" ++ toString p.ProxyPort, Rewrite := true } }

/-- StartProfileServices launches authentication, channel retrieval, and
HLS/Proxy services for a single profile (`profiles.go`).  The bodies of
`(*Portal).Start` and `(*Portal).RetrieveChannels` are not among the sources:
`start` and `retrieve` say, for the receiver they are called on, what the
receiver is afterwards and what they return; a call that does not return is
outside this function.  Log lines are left out. -/
def StartProfileServices (start : stalker.Portal → stalker.Portal × Option GoError)
    (retrieve : stalker.Portal → stalker.Portal × Except GoError stalker.Catalog)
    (s : State) (p : Profile) : State :=
  let s1 := SetProfileValidating s p.ID p.Name "Connecting..."
  let cfg := profileConfig p
  match start cfg.Portal with
  | (_, some err) => SetProfileError s1 p.ID p.Name err
  | (portal1, none) =>
    let s2 := SetProfileValidating s1 p.ID p.Name "Retrieving channels..."
    match retrieve portal1 with
    | (_, .error err) => SetProfileError s2 p.ID p.Name err
    | (portal2, .ok chs) =>
      if chs.length = 0 then
        SetProfileError s2 p.ID p.Name "no IPTV channels retrieved"
      else
        let s3 := SetProfileSuccess s2 p.ID p.Name chs.length "" "" true
        -- pCtx, pCancel := context.WithCancel(context.Background())
        let pCtx := s3.contexts
        let s4 := RegisterRunner { s3 with contexts := s3.contexts + 1 } p.ID pCtx
        let cfg2 : stalker.Config := { cfg with Portal := portal2 }
        { s4 with goroutines := s4.goroutines ++
            [.hlsServer pCtx chs cfg2.HLS.Bind, .proxyServer pCtx cfg2 chs] }

/-- The handler of `/profiles/stop` from the point where `id` has been read:
`_ = StopRunner(id)` and then `SetProfileStopped(id)` (`profile_status.go`). -/
def profilesStop (s : State) (id : Int) : State :=
  SetProfileStopped (StopRunner s id).2 id

/-- A call of one of the four functions that write the status table. -/
inductive StatusCall where
  | validating (id : Int) (name msg : String)
  | error (id : Int) (name msg : String)
  | success (id : Int) (name : String) (channels : Int) (hls proxy : String) (running : Bool)
  | stopped (id : Int)
  deriving DecidableEq, Repr

/-- The profile id a call writes. -/
def StatusCall.id : StatusCall → Int
  | .validating id _ _ => id
  | .error id _ _ => id
  | .success id _ _ _ _ _ => id
  | .stopped id => id

/-- The state after a call. -/
def StatusCall.run (s : State) : StatusCall → State
  | .validating id name msg => SetProfileValidating s id name msg
  | .error id name msg => SetProfileError s id name msg
  | .success id name channels hls proxy running =>
    SetProfileSuccess s id name channels hls proxy running
  | .stopped id => SetProfileStopped s id

/-- A call of `RegisterRunner` or of `StopRunner`. -/
inductive RunnerCall where
  | register (id : Int) (cancel : CancelFunc)
  | stop (id : Int)
  deriving DecidableEq, Repr

/-- The state after a call. -/
def RunnerCall.run (s : State) : RunnerCall → State
  | .register id cancel => RegisterRunner s id cancel
  | .stop id => (StopRunner s id).2

/-- Specification of `IsRunning(id)` after a sequence of calls: a handle has
been registered for `id` and not yet stopped.  `initially` says whether that
was so before the calls. -/
def registeredNotStopped (initially : Bool) (calls : List RunnerCall) (id : Int) : Bool :=
  calls.foldl
    (fun b call =>
      match call with
      | .register i _ => if i = id then true else b
      | .stop i => if i = id then false else b)
    initially

/-- A `context.Context` of this program: `context.Background()`, or the
context that `context.WithCancel(parent)` returns together with the cancel
function `cancel`. -/
inductive Context where
  | background
  | withCancel (cancel : CancelFunc) (parent : Context)
  deriving DecidableEq, Repr

/-- Whether the channel `ctx.Done()` is closed when the cancel functions
`cancelCalls` have been called: the background context is never done, and a
context made by `WithCancel` is done once its cancel function has been called
or its parent is done. -/
def Context.done (cancelCalls : List CancelFunc) : Context → Bool
  | .background => false
  | .withCancel cancel parent => decide (cancel ∈ cancelCalls) || parent.done cancelCalls

/-- The context `pCtx` that `StartProfileServices` makes with
`context.WithCancel(context.Background())`; `cancel` is its `pCancel`. -/
def profileContext (cancel : CancelFunc) : Context :=
  .withCancel cancel .background

/-- The context a server goroutine was started with. -/
def Goroutine.context : Goroutine → Context
  | .hlsServer ctx _ _ => profileContext ctx
  | .proxyServer ctx _ _ => profileContext ctx

/-- The server goroutines that have not been told to stop: both server
functions serve until their context is done. -/
def stillServing (s : State) : List Goroutine :=
  s.goroutines.filter (fun g => !g.context.done s.cancelCalls)

end webui

namespace cmd

/-- The cancel function of the package-level
`ctx, cancel = context.WithCancel(context.Background())` of `main.go`: the
first context of the process. -/
def cancel : webui.CancelFunc := 0

/-- The package-level `ctx` of `main.go`. -/
def ctx : webui.Context := .withCancel cancel .background

/-- The state in which `main` starts: the package-level variables of `webui`
have their initial values and the context of `main` has been made. -/
def initState : webui.State :=
  { webui.State.init with contexts := 1 }

/-- Function `main` of `main.go` from the loop over `profiles` (what
`webui.ListProfiles()` returned) on, when every started profile has run
`StartProfileServices` before the signal arrives: the state at the return of
`main`.  After the signal `main` calls `cancel()` and `wg.Wait()`; no
statement adds to `wg`, so `Wait` returns at once. -/
def main (start : stalker.Portal → stalker.Portal × Option GoError)
    (retrieve : stalker.Portal → stalker.Portal × Except GoError stalker.Catalog)
    (profiles : List webui.Profile) : webui.State :=
  let s1 := profiles.foldl (webui.StartProfileServices start retrieve) initState
  { s1 with cancelCalls := s1.cancelCalls ++ [cancel] }

end cmd

namespace strings

/-- The predicate `unicode.IsSpace`: the white space characters that
`strings.TrimSpace` removes. -/
def isSpace (c : Char) : Bool :=
  c = '\t' || c = '\n' || c.val = 11 || c.val = 12 || c = '\r' || c = ' ' || c.val = 0x85 ||
  c.val = 0xA0 || c.val = 0x1680 || (0x2000 ≤ c.val && c.val ≤ 0x200A) || c.val = 0x2028 ||
  c.val = 0x2029 || c.val = 0x202F || c.val = 0x205F || c.val = 0x3000

/-- The call `strings.TrimSpace(s)`. -/
def TrimSpace (s : String) : String :=
  String.mk ((s.data.dropWhile isSpace).reverse.dropWhile isSpace).reverse

/-- The call `strings.ToLower(s)`: an ASCII character is mapped to its lower
case, and `lowerRune` is `unicode.ToLower` on the other characters. -/
def ToLower (lowerRune : Char → Char) (s : String) : String :=
  String.mk (s.data.map (fun c => if c.val < 128 then c.toLower else lowerRune c))

/-- The call `strings.HasPrefix(s, start)`. -/
def HasPrefix (s start : String) : Bool :=
  start.data.isPrefixOf s.data

/-- The call `strings.HasSuffix(s, suffix)`. -/
def HasSuffix (s suffix : String) : Bool :=
  suffix.data.isSuffixOf s.data

/-- The call `strings.TrimSuffix(s, suffix)`: `s` without the trailing
`suffix`, or `s` itself when it does not end with `suffix`. -/
def TrimSuffix (s suffix : String) : String :=
  if HasSuffix s suffix then String.mk (s.data.take (s.data.length - suffix.data.length)) else s

/-- The call `strings.TrimRight(s, cutset)` for a cutset of the one character
`c`. -/
def TrimRight (s : String) (c : Char) : String :=
  String.mk (s.data.reverse.dropWhile (fun x => x = c)).reverse

end strings

namespace url

/-- The type `url.URL` of package `net/url`. -/
structure URL where
  Scheme : String
  Opaque : String
  User : Option (String × Option String)
  Host : String
  Path : String
  RawPath : String
  OmitHost : Bool
  ForceQuery : Bool
  RawQuery : String
  Fragment : String
  RawFragment : String
  deriving DecidableEq, Repr

end url

namespace webui

/-- The text that `normalizePortalURL` hands to `url.Parse`: the trimmed input
`s`, with `http://` put in front when it starts with neither `http://` nor
`https://` in any letter case. -/
def normalizePortalURL.withScheme (lowerRune : Char → Char) (s : String) : String :=
  if !strings.HasPrefix (strings.ToLower lowerRune s) "http://" &&
      !strings.HasPrefix (strings.ToLower lowerRune s) "https://" then "http://" ++ s
  else s

/-- The path that `normalizePortalURL` stores into `u.Path`, computed from the
parsed `u.Path`.  The variable `lower` of the source is `strings.ToLower(path)`
at every test: it is set again after each assignment to `path`. -/
def normalizePortalURL.path (lowerRune : Char → Char) (uPath : String) : String :=
  let path0 := strings.TrimSpace uPath
  let path1 := if path0 = "" ∨ path0 = "/" then "/portal.php" else path0
  -- Force compatibility: /portal.php yields best results.
  let path2 :=
    if strings.HasSuffix (strings.ToLower lowerRune path1) "/load.php" then
      strings.TrimSuffix path1 "/load.php" ++ "/portal.php"
    else path1
  -- If user pasted some other php endpoint, override to the canonical one.
  let path3 :=
    if strings.HasSuffix (strings.ToLower lowerRune path2) ".php" &&
        !strings.HasSuffix (strings.ToLower lowerRune path2) "/portal.php" then "/portal.php"
    else path2
  -- If user pasted a directory path, append portal.php.
  if !strings.HasSuffix (strings.ToLower lowerRune path3) "/portal.php" then
    if strings.HasSuffix path3 "/" then path3 ++ "portal.php"
    else strings.TrimRight path3 '/' ++ "/portal.php"
  else path3

/-- Function `normalizePortalURL` of `profiles.go`.  `parse` is `url.Parse`
and `urlString` is the method `String` of `*url.URL`. -/
def normalizePortalURL (lowerRune : Char → Char) (parse : String → Except GoError url.URL)
    (urlString : url.URL → String) (input : String) : String :=
  let s0 := strings.TrimSpace input
  if s0 = "" then ""
  else
    let s := normalizePortalURL.withScheme lowerRune s0
    match parse s with
    | .error _ => s
    | .ok u => urlString { u with Path := normalizePortalURL.path lowerRune u.Path }

/-- The test of a regular expression `/...$/i` of the dashboard script whose
pattern is the lower-case ASCII text `ending`: the text ends with `ending` in
some letter case. -/
def endsWithIgnoreCase (p ending : String) : Bool :=
  ending.data.isSuffixOf (p.data.map Char.toLower)

/-- The method `trim` of a string in the dashboard script: the white space and
line terminators of ECMAScript. -/
def jsTrim (s : String) : String :=
  let ws : Char → Bool := fun c =>
    c = '\t' || c = '\n' || c.val = 11 || c.val = 12 || c = '\r' || c = ' ' || c.val = 0xA0 ||
    c.val = 0x1680 || (0x2000 ≤ c.val && c.val ≤ 0x200A) || c.val = 0x2028 || c.val = 0x2029 ||
    c.val = 0x202F || c.val = 0x205F || c.val = 0x3000 || c.val = 0xFEFF
  String.mk ((s.data.dropWhile ws).reverse.dropWhile ws).reverse

/-- The value that function `normalizePortal` of the dashboard script
(`profiles.go`, inside the page template) assigns to `u.pathname`, computed
from the `u.pathname` of the parsed URL. -/
def normalizePortal.pathname (pathname : String) : String :=
  let p0 := jsTrim (if pathname = "" then "/" else pathname)
  let p1 := if p0 = "" ∨ p0 = "/" then "/portal.php" else p0
  let p2 :=
    if endsWithIgnoreCase p1 "/load.php" then
      String.mk (p1.data.take (p1.data.length - 9)) ++ "/portal.php"
    else p1
  if !endsWithIgnoreCase p2 "/portal.php" then
    if endsWithIgnoreCase p2 ".php" then "/portal.php"
    else strings.TrimRight p2 '/' ++ "/portal.php"
  else p2

/-- The sum `n + 1` of Go on the type `int` of a 64-bit platform: it wraps
around at the largest value. -/
def intSucc (n : Int) : Int :=
  if n = 2 ^ 63 - 1 then -2 ^ 63 else n + 1

/-- AddProfile appends a new profile to memory and returns it
(`profiles.go`). -/
def AddProfile (s : State) (p : Profile) : Profile × State :=
  let p1 : Profile := { p with ID := s.nextProfile }
  (p1, { s with nextProfile := intSucc s.nextProfile, profiles := s.profiles ++ [p1] })

/-- ListProfiles returns a copy of current profiles (`profiles.go`). -/
def ListProfiles (s : State) : List Profile :=
  s.profiles

/-- GetProfile returns a profile by ID (`profiles.go`): the first profile of
the list with that ID and `true`, or the zero profile and `false`. -/
def GetProfile (s : State) (id : Int) : Profile × Bool :=
  match s.profiles.find? (fun p => p.ID = id) with
  | some p => (p, true)
  | none => ({ ID := 0, Name := "", PortalURL := "", MAC := "", HlsPort := 0, ProxyPort := 0 }, false)

/-- DeleteProfile removes a profile by ID (`profiles.go`). -/
def DeleteProfile (s : State) (id : Int) : State :=
  { s with profiles := s.profiles.filter (fun p => p.ID ≠ id) }

/-- LoadProfiles loads profiles from disk (`persist.go`).  `loaded` is the
outcome of opening `profiles.json` and decoding it: the error of either step,
or the decoded array. -/
def LoadProfiles (loaded : Except GoError (List Profile)) (s : State) : Option GoError × State :=
  match loaded with
  | .error err => (some err, s)
  | .ok arr =>
    (none, { s with
      profiles := arr,
      nextProfile := arr.foldl (fun next p => if p.ID ≥ next then intSucc p.ID else next) 1 })

/-- A call of `AddProfile`, `DeleteProfile` or `LoadProfiles` (with what the
file decodes to). -/
inductive ProfileCall where
  | add (p : Profile)
  | delete (id : Int)
  | load (loaded : Except GoError (List Profile))

/-- The state after a call. -/
def ProfileCall.run (s : State) : ProfileCall → State
  | .add p => (AddProfile s p).2
  | .delete id => DeleteProfile s id
  | .load loaded => (LoadProfiles loaded s).2

/-- Whether a call is a call of `LoadProfiles`. -/
def ProfileCall.isLoad : ProfileCall → Bool
  | .load _ => true
  | _ => false

/-- The ID that a call of `AddProfile` returns; `none` for the other calls. -/
def ProfileCall.returnedID (s : State) : ProfileCall → Option Int
  | .add p => some (AddProfile s p).1.ID
  | .delete _ => none
  | .load _ => none

/-- The IDs that the calls of `AddProfile` in a sequence of calls return, in
the order of the calls. -/
def returnedIDs : State → List ProfileCall → List Int
  | _, [] => []
  | s, call :: rest => (call.returnedID s).toList ++ returnedIDs (call.run s) rest

/-- Specification of "ignoring integer overflow" for one call in state `s`:
the call computes no `n + 1` at the largest `int`. -/
def ProfileCall.noOverflow (s : State) : ProfileCall → Prop
  | .add _ => s.nextProfile < 2 ^ 63 - 1
  | .delete _ => True
  | .load (.ok arr) => ∀ p ∈ arr, p.ID < 2 ^ 63 - 1
  | .load (.error _) => True

/-- Specification of "ignoring integer overflow" for a sequence of calls
started in state `s`. -/
def noOverflowRun : State → List ProfileCall → Prop
  | _, [] => True
  | s, call :: rest => call.noOverflow s ∧ noOverflowRun (call.run s) rest

/-- The counts of the health report. -/
structure HealthCounts where
  Profiles : Nat
  Running : Nat
  Errors : Nat
  deriving DecidableEq, Repr

/-- The loop of the `/health` handler over the profiles `ps`, with the counts
so far (`health.go`). -/
def healthLoop (s : State) : List Profile → Nat → Nat → Nat × Nat
  | [], running, errors => (running, errors)
  | p :: rest, running, errors =>
    let st := GetProfileStatus s p.ID
    healthLoop s rest (if st.Running then running + 1 else running)
      (if st.Phase = "error" then errors + 1 else errors)

/-- The fields `Profiles`, `Running` and `Errors` of the report that the
`/health` handler builds (`health.go`). -/
def healthCounts (s : State) : HealthCounts :=
  let profiles := ListProfiles s
  let counts := healthLoop s profiles 0 0
  { Profiles := profiles.length, Running := counts.1, Errors := counts.2 }

/-- The handler of `/profiles/delete` from the point where `id` has been read:
`DeleteProfile(id)`, `SaveProfiles()` (which writes the file and changes no
variable) and `SetProfileStopped(id)` (`profile_status.go`). -/
def profilesDelete (s : State) (id : Int) : State :=
  SetProfileStopped (DeleteProfile s id) id

/-- DefaultPortal returns a baseline Portal config used for verification
(`profile_status.go`). -/
def DefaultPortal : stalker.Portal :=
  { Model := "MAG254", SerialNumber := "0000000000000", DeviceID := repeatF64,
    DeviceID2 := repeatF64, Signature := repeatF64, MAC := "", Username := "", Password := "",
    Location := "", TimeZone := "UTC", Token := "", WatchDogTime := 5, DeviceIdAuth := true }

end webui

namespace stalker

/-- Specification of a timezone in the words of the claim: one or more ASCII
letters, a slash, and one or more ASCII letters. -/
def LettersSlashLetters (s : String) : Prop :=
  ∃ area location : List Char, area ≠ [] ∧ location ≠ [] ∧
    (∀ c ∈ area, isAsciiLetter c = true) ∧ (∀ c ∈ location, isAsciiLetter c = true) ∧
    s.data = area ++ '/' :: location

/-- The struct `Config` of `fs.go` with the field `Portal *Portal` as the
pointer that it is: `none` is nil, the value of the field when the YAML file
has no `portal` section.  `Config` above is the case of a `Portal` that is not
nil. -/
structure Config.Nilable where
  Portal : Option stalker.Portal
  HLS : HLSConfig
  Proxy : ProxyConfig
  deriving DecidableEq, Repr

/-- The message of the run-time panic of a nil pointer dereference. -/
def nilDereference : String :=
  "runtime error: invalid memory address or nil pointer dereference"

/-- Method `(c *Config) validateWithDefaults()` of `fs.go` for a receiver and
a `Portal` pointer that may be nil (`none`): how the call ends, and the
receiver afterwards.  The first statement, `c.Portal.MAC =
strings.ToUpper(c.Portal.MAC)`, dereferences `c` and `c.Portal` before any
check and before any write, so a nil pointer panics there; with both pointers
set the function is `validateWithDefaults` above. -/
def Config.Nilable.validateWithDefaults (upperRune : Char → Char) (randomToken : String)
    (c : Option Config.Nilable) : Completion × Option Config.Nilable :=
  match c with
  | none => (.panicked nilDereference, none)
  | some v =>
    match v.Portal with
    | none => (.panicked nilDereference, some v)
    | some portal =>
      let r := stalker.validateWithDefaults upperRune randomToken
        { Portal := portal, HLS := v.HLS, Proxy := v.Proxy }
      (.returned r.1, some { Portal := some r.2.Portal, HLS := r.2.HLS, Proxy := r.2.Proxy })

end stalker

/-! ## Sample inputs -/

/-- The portal identity that the program builds for a profile with the
portal URL `http://portal.example/portal.php`, holding the token `T0`. -/
def samplePortal : stalker.Portal :=
  { Model := "MAG254", SerialNumber := "0000000000000", DeviceID := webui.repeatF64,
    DeviceID2 := webui.repeatF64, Signature := webui.repeatF64, MAC := "00:1A:79:12:34:56",
    Username := "", Password := "", Location := "http://portal.example/portal.php",
    TimeZone := "UTC", Token := "T0", WatchDogTime := 5, DeviceIdAuth := true }

/-- A catalog with the single channel `a`. -/
def catalogA : stalker.Catalog := [("a", ⟨"a", "news", "a.png", "ffrt http://up/a"⟩)]

/-- A catalog with the single channel `b`. -/
def catalogB : stalker.Catalog := [("b", ⟨"b", "sport", "b.png", "ffrt http://up/b"⟩)]

/-- A profile with id 1. -/
def sampleProfile : webui.Profile :=
  { ID := 1, Name := "home", PortalURL := "http://portal.example/portal.php",
    MAC := "00:1A:79:12:34:56", HlsPort := 8001, ProxyPort := 9001 }

/-- A registry state in which the ids 1 and 2 hold the same cancel function,
as after `RegisterRunner(1, c)` and `RegisterRunner(2, c)`. -/
def sharedHandleState : webui.State :=
  webui.RegisterRunner (webui.RegisterRunner webui.State.init 1 7) 2 7

/-- On amd64 the conversion of a `float64` that `int64` cannot represent
yields the smallest `int64`. -/
def amd64OutOfRange : stalker.Float64 → Int := fun _ => -2 ^ 63

/-- The outcomes of an operation that fails twice and then succeeds. -/
def failTwice : Nat → Option GoError :=
  fun n => if n < 2 then some "connection refused" else none

/-- The outcomes of an operation that fails at every call, with a different
error at each of the first three calls. -/
def alwaysFail : Nat → Option GoError :=
  fun n => some (if n = 0 then "first error" else if n = 1 then "second error" else "third error")

/-- A configuration file content that passes every check of
`validateWithDefaults`. -/
def sampleConfig : stalker.Config :=
  { Portal := { samplePortal with TimeZone := "Europe/Vilnius" },
    HLS := { Enabled := true, Bind := "0.0.0.0:8001" },
    Proxy := { Enabled := true, Bind := "0.0.0.0:9001", Rewrite := true } }

/-- A configuration file content without `portal` section in which both
services are disabled. -/
def noPortalBothDisabled : stalker.Config.Nilable :=
  { Portal := none, HLS := { Enabled := false, Bind := "" },
    Proxy := { Enabled := false, Bind := "", Rewrite := false } }

/-- A configuration file content without `portal` section in which proxy
rewrite is enabled and the HLS service is disabled. -/
def noPortalRewrite : stalker.Config.Nilable :=
  { Portal := none, HLS := { Enabled := false, Bind := "" },
    Proxy := { Enabled := true, Bind := "0.0.0.0:9001", Rewrite := true } }

/-- A catalog whose `range` loop visits the keys in the order `b`, `a`, `c`. -/
def catalogBAC : stalker.Catalog :=
  [("b", ⟨"b", "news", "b.png", ""⟩), ("a", ⟨"a", "news", "a.png", ""⟩),
   ("c", ⟨"c", "news", "c.png", ""⟩)]

/-- A profile as `POST /profiles` stores it for the form value
`mac=00-1A-79-12-34-56`. -/
def dashMacProfile : webui.Profile :=
  { sampleProfile with MAC := "00-1A-79-12-34-56" }

/-- The text before the first `://` and the text after it. -/
def splitAtScheme : List Char → Option (List Char × List Char)
  | [] => none
  | c :: rest =>
    if (c :: rest).take 3 = [':', '/', '/'] then some ([], rest.drop 2)
    else (splitAtScheme rest).map (fun parts => (c :: parts.1, parts.2))

/-- The value of `url.Parse` on the texts used below: URLs of the form
`scheme://host/path` without user, query or fragment, whose path needs no
escaping.  The scheme is lower-cased, the host is the text up to the first
slash and the path is the rest. -/
def plainParse (s : String) : Except GoError url.URL :=
  match splitAtScheme s.data with
  | some (scheme, rest) =>
    .ok { Scheme := String.mk (scheme.map Char.toLower), Opaque := "", User := none,
          Host := String.mk (rest.takeWhile (fun c => c ≠ '/')),
          Path := String.mk (rest.dropWhile (fun c => c ≠ '/')), RawPath := "",
          OmitHost := false, ForceQuery := false, RawQuery := "", Fragment := "",
          RawFragment := "" }
  | none => .error "parse: not of the form scheme://host/path"

/-- The value of the method `String` on the URLs that `plainParse` yields. -/
def plainString (u : url.URL) : String :=
  u.Scheme ++ "://" ++ u.Host ++ u.Path

/-- The profile list of a `profiles.json` that holds the smallest and the
largest `int` as IDs. -/
def extremeIDs : List webui.Profile :=
  [{ sampleProfile with ID := -2 ^ 63, Name := "first" },
   { sampleProfile with ID := 2 ^ 63 - 1, Name := "second" }]

/-! ## Portal authentication (`authentication.go`) -/

namespace stalker

/-- C1: for every held token and every response body that `json.Unmarshal`
decodes into the envelope, a `token` entry holding a non-empty string `S`
makes `handshake` return nil with the held token replaced by `S` and every
other field of the portal kept; an absent `token` entry or the empty string
makes it return nil with the portal unchanged. -/
theorem handshake_token_update (p : Portal) (contents : String) (tmp : handshake.tmpStruct) :
    (∀ S : String, GoMap.get tmp.Js "token" = some (.string S) → S ≠ "" →
      handshake p (.received contents (.ok tmp)) =
        ⟨{ p with Token := S }, [], .returned none⟩) ∧
    ((GoMap.get tmp.Js "token" = none ∨ GoMap.get tmp.Js "token" = some (.string "")) →
      handshake p (.received contents (.ok tmp)) = ⟨p, [], .returned none⟩) := by
  constructor
  · intro S hS hne
    simp [handshake, hS, GoValue.eqString, hne]
  · rintro (h | h)
    · simp [handshake, h]
    · simp [handshake, h, GoValue.eqString]

/-- Witness of C1: the token `XYZ` replaces the held token `T0`, and an
envelope without a token entry leaves `T0` in place. -/
theorem handshake_token_update_witness :
    handshake samplePortal (.received "" (.ok ⟨[("token", .string "XYZ")]⟩)) =
        ⟨{ samplePortal with Token := "XYZ" }, [], .returned none⟩ ∧
    handshake samplePortal (.received "" (.ok ⟨[]⟩)) = ⟨samplePortal, [], .returned none⟩ :=
  ⟨(handshake_token_update samplePortal "" ⟨[("token", .string "XYZ")]⟩).1 "XYZ" rfl (by decide),
   (handshake_token_update samplePortal "" ⟨[]⟩).2 (Or.inl rfl)⟩

/-- C2, at the failing inputs: for the decoded envelopes of the bodies
`{"js":{"token":123}}`, `{"js":{"token":true}}`, `{"js":{"token":{}}}` and
`{"js":{"token":null}}` the call of `handshake` does not return: the type
assertion `token.(string)` panics. -/
theorem handshake_panics_on_non_string_token :
    (handshake samplePortal (.received "\x7b\"js\":\x7b\"token\":123\x7d\x7d"
        (.ok ⟨[("token", .float64 123)]⟩))).completion =
      .panicked "interface conversion: interface \x7b\x7d is float64, not string" ∧
    (handshake samplePortal (.received "\x7b\"js\":\x7b\"token\":true\x7d\x7d"
        (.ok ⟨[("token", .bool true)]⟩))).completion =
      .panicked "interface conversion: interface \x7b\x7d is bool, not string" ∧
    (handshake samplePortal (.received "\x7b\"js\":\x7b\"token\":\x7b\x7d\x7d\x7d"
        (.ok ⟨[("token", .map [])]⟩))).completion =
      .panicked "interface conversion: interface \x7b\x7d is map[string]interface \x7b\x7d, not string" ∧
    (handshake samplePortal (.received "\x7b\"js\":\x7b\"token\":null\x7d\x7d"
        (.ok ⟨[("token", .nil)]⟩))).completion =
      .panicked "interface conversion: interface \x7b\x7d is nil, not string" := by
  refine ⟨?_, ?_, ?_, ?_⟩ <;> rfl

/-- A body that `json.Unmarshal` rejects makes `handshake` return that error,
log the body, and leave the portal (the held token included) unchanged. -/
theorem handshake_malformed_body (p : Portal) (contents : String) (err : GoError) :
    handshake p (.received contents (.error err)) = ⟨p, [contents], .returned (some err)⟩ :=
  rfl

/-- A `token` entry that holds anything but a string makes `handshake`
panic, whatever the portal and the rest of the envelope are. -/
theorem handshake_panics_of_non_string (p : Portal) (contents : String)
    (tmp : handshake.tmpStruct) (v : GoValue) (h : GoMap.get tmp.Js "token" = some v)
    (hv : ∀ s, v ≠ .string s) :
    (handshake p (.received contents (.ok tmp))).completion =
      .panicked ("interface conversion: interface \x7b\x7d is " ++ v.typeName ++ ", not string") := by
  cases v with
  | string s => exact absurd rfl (hv s)
  | nil => simp [handshake, h, GoValue.eqString]
  | bool b => simp [handshake, h, GoValue.eqString]
  | float64 x => simp [handshake, h, GoValue.eqString]
  | slice xs => simp [handshake, h, GoValue.eqString]
  | map kvs => simp [handshake, h, GoValue.eqString]

/-- C3: for every login response that decodes into the envelope,
`authenticate` returns nil exactly when the flag `js` is true, and returns
the error `invalid credentials` when the flag is false (which is also what an
absent flag decodes to). -/
theorem authenticate_success_iff_flag (p : Portal) (contents : String)
    (tmp : authenticate.tmpStruct) :
    ((authenticate p (.received contents (.ok tmp))).completion = .returned none ↔
      tmp.Js = true) ∧
    (tmp.Js = false →
      (authenticate p (.received contents (.ok tmp))).completion =
        .returned (some "invalid credentials")) := by
  cases h : tmp.Js <;> simp [authenticate, h]

/-- Witness of C3: the response `{js: true, text: "welcome"}` is accepted and
the response `{js: false, text: "bad password"}` is refused. -/
theorem authenticate_success_iff_flag_witness :
    (authenticate samplePortal (.received "" (.ok ⟨true, "welcome"⟩))).completion =
      .returned none ∧
    (authenticate samplePortal (.received "" (.ok ⟨false, "bad password"⟩))).completion =
      .returned (some "invalid credentials") :=
  ⟨(authenticate_success_iff_flag samplePortal "" ⟨true, "welcome"⟩).1.mpr rfl,
   (authenticate_success_iff_flag samplePortal "" ⟨false, "bad password"⟩).2 rfl⟩

/-- C4 as stated fails: for the response with flag false and text
`bad password` the message of the returned error is `invalid credentials`,
not `bad password`. -/
theorem authenticate_error_message_not_text :
    (authenticate samplePortal (.received "" (.ok ⟨false, "bad password"⟩))).completion =
        .returned (some "invalid credentials") ∧
    (authenticate samplePortal (.received "" (.ok ⟨false, "bad password"⟩))).completion ≠
        .returned (some "bad password") := by
  constructor
  · rfl
  · decide

/-- C4 amended: for every login response whose flag is not true,
`authenticate` returns the error with the fixed message `invalid credentials`;
the text of the response is written to the log and the portal is
unchanged. -/
theorem authenticate_failure_logs_text (p : Portal) (contents : String)
    (tmp : authenticate.tmpStruct) (h : tmp.Js ≠ true) :
    authenticate p (.received contents (.ok tmp)) =
      ⟨p, ["Logging in to Stalker says:", tmp.Text], .returned (some "invalid credentials")⟩ := by
  simp [authenticate, h]

/-- Witness of C4 amended, at flag false and text `bad password`. -/
theorem authenticate_failure_logs_text_witness :
    authenticate samplePortal (.received "" (.ok ⟨false, "bad password"⟩)) =
      ⟨samplePortal, ["Logging in to Stalker says:", "bad password"],
        .returned (some "invalid credentials")⟩ :=
  authenticate_failure_logs_text samplePortal "" ⟨false, "bad password"⟩ (by decide)

/-- C5: for every profile-lookup response that decodes into the envelope,
`authenticateWithDeviceIDs` returns nil exactly when the profile id is not
the empty string, and returns the error `invalid credentials` when it is
empty (which is also what an absent id decodes to), whatever the profile name
and the text are. -/
theorem authenticateWithDeviceIDs_success_iff_id (p : Portal) (contents : String)
    (tmp : authenticateWithDeviceIDs.tmpStruct) :
    ((authenticateWithDeviceIDs p (.received contents (.ok tmp))).completion = .returned none ↔
      tmp.Id ≠ "") ∧
    (tmp.Id = "" →
      (authenticateWithDeviceIDs p (.received contents (.ok tmp))).completion =
        .returned (some "invalid credentials")) := by
  by_cases h : tmp.Id = "" <;> simp [authenticateWithDeviceIDs, h]

/-- Witness of C5: the profile `{id: "42", name: "A"}` is accepted and the
profile `{id: "", name: ""}` is refused. -/
theorem authenticateWithDeviceIDs_success_iff_id_witness :
    (authenticateWithDeviceIDs samplePortal (.received "" (.ok ⟨"42", "A", ""⟩))).completion =
      .returned none ∧
    (authenticateWithDeviceIDs samplePortal (.received "" (.ok ⟨"", "", ""⟩))).completion =
      .returned (some "invalid credentials") :=
  ⟨(authenticateWithDeviceIDs_success_iff_id samplePortal "" ⟨"42", "A", ""⟩).1.mpr (by decide),
   (authenticateWithDeviceIDs_success_iff_id samplePortal "" ⟨"", "", ""⟩).2 rfl⟩

end stalker

/-! ## Go maps -/

namespace GoMap

variable {κ α : Type} [DecidableEq κ]

/-- After `m[k] = v` the lookup of `k` finds `v`. -/
theorem get_set_self (m : GoMap κ α) (k : κ) (v : α) : get (set m k v) k = some v := by
  induction m with
  | nil => simp [set, get]
  | cons e rest ih =>
    obtain ⟨k1, v1⟩ := e
    by_cases h : k1 = k
    · simp [set, get, h]
    · simp [set, get, h, ih]

/-- The assignment `m[k] = v` does not change the lookup of another key. -/
theorem get_set_of_ne (m : GoMap κ α) (k j : κ) (v : α) (h : k ≠ j) :
    get (set m k v) j = get m j := by
  induction m with
  | nil => simp [set, get, h]
  | cons e rest ih =>
    obtain ⟨k1, v1⟩ := e
    by_cases h1 : k1 = k
    · subst h1
      simp [set, get, h]
    · by_cases h2 : k1 = j
      · subst h2
        simp [set, get, h1]
      · simp [set, get, h1, h2, ih]

/-- After `delete(m, k)` the lookup of `k` finds nothing. -/
theorem get_delete_self (m : GoMap κ α) (k : κ) : get (delete m k) k = none := by
  induction m with
  | nil => simp [delete, get]
  | cons e rest ih =>
    obtain ⟨k1, v1⟩ := e
    by_cases h : k1 = k
    · simp [delete, h, ih]
    · simp [delete, get, h, ih]

/-- The statement `delete(m, k)` does not change the lookup of another key. -/
theorem get_delete_of_ne (m : GoMap κ α) (k j : κ) (h : k ≠ j) :
    get (delete m k) j = get m j := by
  induction m with
  | nil => simp [delete, get]
  | cons e rest ih =>
    obtain ⟨k1, v1⟩ := e
    by_cases h1 : k1 = k
    · subst h1
      simp [delete, get, h, ih]
    · by_cases h2 : k1 = j
      · subst h2
        simp [delete, get, h1]
      · simp [delete, get, h1, h2, ih]

end GoMap

/-! ## Profile start-up (`profiles.go`), the HLS start (`hls.go`) and the
registries (`profile_status.go`, `runtime.go`) -/

namespace webui

/-- The status that `SetProfileError` writes is read back with phase `error`,
not running, and the given message; nothing but `pstate` changes. -/
theorem SetProfileError_spec (s : State) (id : Int) (name msg : String) :
    (GetProfileStatus (SetProfileError s id name msg) id).Phase = "error" ∧
    (GetProfileStatus (SetProfileError s id name msg) id).Running = false ∧
    (GetProfileStatus (SetProfileError s id name msg) id).Message = msg ∧
    (SetProfileError s id name msg).runners = s.runners ∧
    (SetProfileError s id name msg).goroutines = s.goroutines ∧
    (SetProfileError s id name msg).contexts = s.contexts ∧
    (SetProfileError s id name msg).cancelCalls = s.cancelCalls := by
  simp [SetProfileError, GetProfileStatus, GoMap.get_set_self]

/-- When `Start` returns an error, `StartProfileServices` records it and
returns. -/
theorem StartProfileServices_start_failed
    (start : stalker.Portal → stalker.Portal × Option GoError)
    (retrieve : stalker.Portal → stalker.Portal × Except GoError stalker.Catalog)
    (s : State) (p : Profile) (q1 : stalker.Portal) (err : GoError)
    (h1 : start (profileConfig p).Portal = (q1, some err)) :
    StartProfileServices start retrieve s p =
      SetProfileError (SetProfileValidating s p.ID p.Name "Connecting...") p.ID p.Name err := by
  simp only [StartProfileServices, h1]

/-- When `RetrieveChannels` returns an error, `StartProfileServices` records
it and returns. -/
theorem StartProfileServices_retrieve_failed
    (start : stalker.Portal → stalker.Portal × Option GoError)
    (retrieve : stalker.Portal → stalker.Portal × Except GoError stalker.Catalog)
    (s : State) (p : Profile) (q1 q2 : stalker.Portal) (err : GoError)
    (h1 : start (profileConfig p).Portal = (q1, none)) (h2 : retrieve q1 = (q2, .error err)) :
    StartProfileServices start retrieve s p =
      SetProfileError
        (SetProfileValidating (SetProfileValidating s p.ID p.Name "Connecting...") p.ID p.Name
          "Retrieving channels...") p.ID p.Name err := by
  simp only [StartProfileServices, h1, h2]

/-- When the catalog is empty, `StartProfileServices` records that and
returns. -/
theorem StartProfileServices_empty_catalog
    (start : stalker.Portal → stalker.Portal × Option GoError)
    (retrieve : stalker.Portal → stalker.Portal × Except GoError stalker.Catalog)
    (s : State) (p : Profile) (q1 q2 : stalker.Portal) (chs : stalker.Catalog)
    (h1 : start (profileConfig p).Portal = (q1, none)) (h2 : retrieve q1 = (q2, .ok chs))
    (h3 : chs.length = 0) :
    StartProfileServices start retrieve s p =
      SetProfileError
        (SetProfileValidating (SetProfileValidating s p.ID p.Name "Connecting...") p.ID p.Name
          "Retrieving channels...") p.ID p.Name "no IPTV channels retrieved" := by
  simp only [StartProfileServices, h1, h2, h3, if_true]

/-- When the catalog is not empty, `StartProfileServices` marks the profile
verified, registers a new cancel handle and starts both servers. -/
theorem StartProfileServices_started
    (start : stalker.Portal → stalker.Portal × Option GoError)
    (retrieve : stalker.Portal → stalker.Portal × Except GoError stalker.Catalog)
    (s : State) (p : Profile) (q1 q2 : stalker.Portal) (chs : stalker.Catalog)
    (h1 : start (profileConfig p).Portal = (q1, none)) (h2 : retrieve q1 = (q2, .ok chs))
    (h3 : chs.length ≠ 0) :
    StartProfileServices start retrieve s p =
      { SetProfileSuccess
          (SetProfileValidating (SetProfileValidating s p.ID p.Name "Connecting...") p.ID p.Name
            "Retrieving channels...") p.ID p.Name chs.length "" "" true with
        contexts := s.contexts + 1
        runners := GoMap.set s.runners p.ID { cancel := s.contexts }
        goroutines := s.goroutines ++
          [.hlsServer s.contexts chs ("0.0.0.0:" ++ toString p.HlsPort),
           .proxyServer s.contexts { profileConfig p with Portal := q2 } chs] } := by
  simp only [StartProfileServices, h1, h2, h3, if_false]
  rfl

/-- C8: `StartProfileServices`, for every behaviour of `Start` and
`RetrieveChannels`.  When `Start` returns nil and `RetrieveChannels` returns
without error a catalog that is not empty, the profile status is phase
`success`, running, with the catalog size as channel count, a new cancel
handle is registered for the profile, and the HLS and the proxy server are
started on the new context.  In the three other cases (`Start` fails,
`RetrieveChannels` fails, the catalog is empty) the status is phase `error`,
not running, with the message of the failure, and the registry, the contexts,
the cancel calls and the goroutines are as before.  The four cases cover
every behaviour. -/
theorem StartProfileServices_outcome
    (start : stalker.Portal → stalker.Portal × Option GoError)
    (retrieve : stalker.Portal → stalker.Portal × Except GoError stalker.Catalog)
    (s : State) (p : Profile) :
    (∀ q1 q2 chs, start (profileConfig p).Portal = (q1, none) →
        retrieve q1 = (q2, .ok chs) → chs.length ≠ 0 →
      GetProfileStatus (StartProfileServices start retrieve s p) p.ID =
        { ID := p.ID, Name := p.Name, Phase := "success", Message := "Verified",
          Channels := chs.length, HLS := "", Proxy := "", Running := true } ∧
      (StartProfileServices start retrieve s p).runners =
        GoMap.set s.runners p.ID { cancel := s.contexts } ∧
      IsRunning (StartProfileServices start retrieve s p) p.ID = true ∧
      (StartProfileServices start retrieve s p).contexts = s.contexts + 1 ∧
      (StartProfileServices start retrieve s p).goroutines = s.goroutines ++
        [.hlsServer s.contexts chs ("0.0.0.0:" ++ toString p.HlsPort),
         .proxyServer s.contexts { profileConfig p with Portal := q2 } chs]) ∧
    (∀ msg : GoError,
        ((∃ q1, start (profileConfig p).Portal = (q1, some msg)) ∨
         (∃ q1 q2, start (profileConfig p).Portal = (q1, none) ∧
            retrieve q1 = (q2, .error msg)) ∨
         (∃ q1 q2 chs, start (profileConfig p).Portal = (q1, none) ∧
            retrieve q1 = (q2, .ok chs) ∧ chs.length = 0 ∧
            msg = "no IPTV channels retrieved")) →
      (GetProfileStatus (StartProfileServices start retrieve s p) p.ID).Phase = "error" ∧
      (GetProfileStatus (StartProfileServices start retrieve s p) p.ID).Running = false ∧
      (GetProfileStatus (StartProfileServices start retrieve s p) p.ID).Message = msg ∧
      (StartProfileServices start retrieve s p).runners = s.runners ∧
      (StartProfileServices start retrieve s p).goroutines = s.goroutines ∧
      (StartProfileServices start retrieve s p).contexts = s.contexts ∧
      (StartProfileServices start retrieve s p).cancelCalls = s.cancelCalls) ∧
    ((∃ q1 q2 chs, start (profileConfig p).Portal = (q1, none) ∧
        retrieve q1 = (q2, .ok chs) ∧ chs.length ≠ 0) ∨
     (∃ q1 msg, start (profileConfig p).Portal = (q1, some msg)) ∨
     (∃ q1 q2 msg, start (profileConfig p).Portal = (q1, none) ∧
        retrieve q1 = (q2, .error msg)) ∨
     (∃ q1 q2 chs, start (profileConfig p).Portal = (q1, none) ∧
        retrieve q1 = (q2, .ok chs) ∧ chs.length = 0)) := by
  refine ⟨?_, ?_, ?_⟩
  · intro q1 q2 chs h1 h2 h3
    rw [StartProfileServices_started start retrieve s p q1 q2 chs h1 h2 h3]
    simp [SetProfileSuccess, GetProfileStatus, IsRunning, GoMap.get_set_self]
  · intro msg h
    rcases h with ⟨q1, h1⟩ | ⟨q1, q2, h1, h2⟩ | ⟨q1, q2, chs, h1, h2, h3, rfl⟩
    · rw [StartProfileServices_start_failed start retrieve s p q1 msg h1]
      exact SetProfileError_spec _ _ _ _
    · rw [StartProfileServices_retrieve_failed start retrieve s p q1 q2 msg h1 h2]
      exact SetProfileError_spec _ _ _ _
    · rw [StartProfileServices_empty_catalog start retrieve s p q1 q2 chs h1 h2 h3]
      exact SetProfileError_spec _ _ _ _
  · rcases h1 : start (profileConfig p).Portal with ⟨q1, _ | msg⟩
    · rcases h2 : retrieve q1 with ⟨q2, msg | chs⟩
      · exact Or.inr (Or.inr (Or.inl ⟨q1, q2, msg, rfl, h2⟩))
      · by_cases h3 : chs.length = 0
        · exact Or.inr (Or.inr (Or.inr ⟨q1, q2, chs, rfl, h2, h3⟩))
        · exact Or.inl ⟨q1, q2, chs, rfl, h2, h3⟩
    · exact Or.inr (Or.inl ⟨q1, msg, rfl⟩)

/-- Witness of C8: with a `Start` that succeeds, the catalog `catalogA` brings
the sample profile to phase `success`, running, one channel, with a handle
registered; the empty catalog brings it to phase `error`, not running, with
the message `no IPTV channels retrieved` and no handle. -/
theorem StartProfileServices_outcome_witness :
    (GetProfileStatus
        (StartProfileServices (fun q => (q, none)) (fun q => (q, .ok catalogA)) State.init
          sampleProfile) 1 =
      { ID := 1, Name := "home", Phase := "success", Message := "Verified", Channels := 1,
        HLS := "", Proxy := "", Running := true } ∧
     IsRunning
        (StartProfileServices (fun q => (q, none)) (fun q => (q, .ok catalogA)) State.init
          sampleProfile) 1 = true) ∧
    ((GetProfileStatus
        (StartProfileServices (fun q => (q, none)) (fun q => (q, .ok [])) State.init
          sampleProfile) 1).Phase = "error" ∧
     (GetProfileStatus
        (StartProfileServices (fun q => (q, none)) (fun q => (q, .ok [])) State.init
          sampleProfile) 1).Message = "no IPTV channels retrieved" ∧
     (StartProfileServices (fun q => (q, none)) (fun q => (q, .ok [])) State.init
          sampleProfile).runners = []) :=
  have hA := (StartProfileServices_outcome (fun q => (q, none)) (fun q => (q, .ok catalogA))
    State.init sampleProfile).1 _ _ catalogA rfl rfl (by decide)
  have hE := (StartProfileServices_outcome (fun q => (q, none)) (fun q => (q, .ok []))
    State.init sampleProfile).2.1 "no IPTV channels retrieved"
    (Or.inr (Or.inr ⟨_, _, [], rfl, rfl, rfl, rfl⟩))
  ⟨⟨hA.1, hA.2.2.1⟩, ⟨hE.1, hE.2.2.1, hE.2.2.2.1⟩⟩

/-- C10 as stated fails: in a registry where the ids 1 and 2 hold the same
cancel function, `StopRunner(1)` invokes the cancel function that is
registered for id 2. -/
theorem StopRunner_invokes_shared_handle :
    GoMap.get sharedHandleState.runners 2 = some { cancel := 7 } ∧
    sharedHandleState.cancelCalls = [] ∧
    (StopRunner sharedHandleState 1).2.cancelCalls = [7] := by
  refine ⟨?_, ?_, ?_⟩ <;> decide

/-- C10 amended: for distinct profile ids `i` and `j` and every state, each of
`SetProfileValidating(i)`, `SetProfileError(i)`, `SetProfileSuccess(i)`,
`SetProfileStopped(i)` and `RegisterRunner(i)` leaves `GetProfileStatus(j)` and
`IsRunning(j)` unchanged and invokes no cancel function; `StopRunner(i)` leaves
`GetProfileStatus(j)` and `IsRunning(j)` unchanged and invokes the cancel
function registered for `i` and no other, so the cancel function registered
for `j` is not invoked unless it is the one registered for `i` as well. -/
theorem profile_operations_frame (s : State) (i j : Int) (hij : i ≠ j)
    (name msg hls proxy : String) (channels : Int) (running : Bool) (cancel : CancelFunc) :
    (∀ t ∈ [SetProfileValidating s i name msg, SetProfileError s i name msg,
            SetProfileSuccess s i name channels hls proxy running, SetProfileStopped s i,
            RegisterRunner s i cancel],
        GetProfileStatus t j = GetProfileStatus s j ∧ IsRunning t j = IsRunning s j ∧
        t.cancelCalls = s.cancelCalls) ∧
    GetProfileStatus (StopRunner s i).2 j = GetProfileStatus s j ∧
    IsRunning (StopRunner s i).2 j = IsRunning s j ∧
    (StopRunner s i).2.cancelCalls =
      s.cancelCalls ++ ((GoMap.get s.runners i).map (fun r => r.cancel)).toList ∧
    (∀ c, GoMap.get s.runners j = some { cancel := c } →
        GoMap.get s.runners i ≠ some { cancel := c } →
        (StopRunner s i).2.cancelCalls.count c = s.cancelCalls.count c) := by
  refine ⟨?_, ?_, ?_, ?_, ?_⟩
  · intro t ht
    simp only [List.mem_cons, List.mem_singleton, List.not_mem_nil, or_false] at ht
    rcases ht with rfl | rfl | rfl | rfl | rfl <;>
      simp [SetProfileValidating, SetProfileError, SetProfileSuccess, SetProfileStopped,
        RegisterRunner, GetProfileStatus, IsRunning, GoMap.get_set_of_ne _ _ _ _ hij]
  · cases h : GoMap.get s.runners i <;> simp [StopRunner, h, GetProfileStatus]
  · cases h : GoMap.get s.runners i <;>
      simp [StopRunner, h, IsRunning, GoMap.get_delete_of_ne _ _ _ hij]
  · cases h : GoMap.get s.runners i <;> simp [StopRunner, h]
  · intro c _ hne
    cases h : GoMap.get s.runners i with
    | none => simp [StopRunner, h]
    | some r =>
      have hc : r.cancel ≠ c := by
        intro hrc
        apply hne
        rw [h, ← hrc]
      have h0 : List.count c [r.cancel] = 0 :=
        List.count_eq_zero.mpr (by simpa using hc.symm)
      simp [StopRunner, h, List.count_append, h0]

/-- Witness of C10 amended: in the state where id 1 holds the cancel function
0 and id 2 the cancel function 1, `StopRunner(1)` invokes the cancel function 0
and not the one of id 2, and id 2 is still running. -/
theorem profile_operations_frame_witness :
    IsRunning (StopRunner (RegisterRunner (RegisterRunner State.init 1 0) 2 1) 1).2 2 = true ∧
    (StopRunner (RegisterRunner (RegisterRunner State.init 1 0) 2 1) 1).2.cancelCalls.count 1
      = 0 :=
  have h := profile_operations_frame (RegisterRunner (RegisterRunner State.init 1 0) 2 1) 1 2
    (by decide) "" "" "" "" 0 false 0
  ⟨h.2.2.1.trans (by decide), (h.2.2.2.2 1 (by decide) (by decide)).trans (by decide)⟩

end webui

namespace hls

/-- C9, at the failing input: after the HLS server of a profile with catalog
`catalogA` has started, the start of the HLS server of a profile with catalog
`catalogB` replaces both package-level variables: the key list is `["b"]` and
no longer `["a"]`, and the channel `a` is no longer in the channel table that
every handler reads. -/
theorem hls_second_start_replaces_first :
    (StartWithContext ⟨[], []⟩ 0 catalogA "0.0.0.0:8001").sortedChannels = ["a"] ∧
    (GoMap.get (StartWithContext ⟨[], []⟩ 0 catalogA "0.0.0.0:8001").playlist "a").isSome
      = true ∧
    (StartWithContext (StartWithContext ⟨[], []⟩ 0 catalogA "0.0.0.0:8001") 1 catalogB
      "0.0.0.0:8002").sortedChannels = ["b"] ∧
    GoMap.get (StartWithContext (StartWithContext ⟨[], []⟩ 0 catalogA "0.0.0.0:8001") 1
      catalogB "0.0.0.0:8002").playlist "a" = none := by
  refine ⟨?_, ?_, ?_, ?_⟩ <;> decide

/-- The variables that `StartWithContext` leaves behind depend on the
catalog of the last start only, whatever an earlier start had stored. -/
theorem hls_start_forgets_earlier_start (g : Globals) (ctxA ctxB : Nat)
    (A B : stalker.Catalog) (bindA bindB : String) :
    StartWithContext (StartWithContext g ctxA A bindA) ctxB B bindB =
      StartWithContext g ctxB B bindB :=
  rfl

end hls

/-! ## The retry executor (`fs.go`) -/

namespace stalker

/-- A magnitude below `2^53` loses no bit. -/
theorem droppedBits_of_lt (m : Nat) (h : m < 2 ^ 53) : droppedBits m m = 0 := by
  cases m with
  | zero => rfl
  | succ n =>
    unfold droppedBits
    rw [if_pos h]

/-- A magnitude of at most `2^53` is a `float64`. -/
theorem roundMagnitude_of_le (m : Nat) (h : m ≤ 2 ^ 53) : roundMagnitude m = m := by
  rcases Nat.lt_or_eq_of_le h with h1 | h1
  · simp [roundMagnitude, droppedBits_of_lt m h1, Nat.mod_one]
  · subst h1
    decide

/-- Every integer of magnitude at most `2^53` is exactly representable:
`float64(n)` is `n`. -/
theorem roundToFloat64_of_natAbs_le (n : Int) (h : n.natAbs ≤ 2 ^ 53) : roundToFloat64 n = n := by
  unfold roundToFloat64
  rw [roundMagnitude_of_le _ h]
  split_ifs with h0
  · omega
  · omega

/-- The delay after the failed attempt `i`, when the base delay is exactly
representable and the product does not overflow. -/
theorem backoffDelay_eq_min (oor : Float64 → Int) (cfg : RetryConfig)
    (hrep : roundToFloat64 cfg.BaseDelay = cfg.BaseDelay) (hB : 0 ≤ cfg.BaseDelay)
    (i : Nat) (hi : i ≤ 1023) (hov : cfg.BaseDelay * 2 ^ i < 2 ^ 63) :
    backoffDelay oor cfg i = min (cfg.BaseDelay * 2 ^ i) cfg.MaxDelay := by
  have h0 : 0 ≤ cfg.BaseDelay * 2 ^ i := mul_nonneg hB (by positivity)
  have h1 : (cfg.BaseDelay * 2 ^ i).natAbs < (2 ^ 256) ^ 4 := by
    have : (cfg.BaseDelay * 2 ^ i).natAbs < 2 ^ 63 := by omega
    exact lt_trans this (by norm_num)
  have h2 : -2 ^ 63 ≤ cfg.BaseDelay * 2 ^ i := le_trans (by norm_num) h0
  simp only [backoffDelay, scaledDelay, hrep, hi, if_true, h1, toDuration, h2, hov, and_self]
  rcases le_or_lt (cfg.BaseDelay * 2 ^ i) cfg.MaxDelay with h | h
  · rw [if_neg (not_lt.mpr h), min_eq_left h]
  · rw [if_pos h, min_eq_right h.le]

/-- The delay never exceeds `MaxDelay`: the cap is applied last. -/
theorem backoffDelay_le (oor : Float64 → Int) (cfg : RetryConfig) (i : Nat) :
    backoffDelay oor cfg i ≤ cfg.MaxDelay := by
  unfold backoffDelay
  simp only
  split_ifs with h
  · exact le_refl _
  · exact not_lt.mp h

/-- The loop condition `attempt < config.MaxRetries` in natural numbers. -/
theorem lt_MaxRetries_iff (cfg : RetryConfig) (a : Nat) :
    (a : Int) < cfg.MaxRetries ↔ a < cfg.MaxRetries.toNat := by
  omega

/-- The condition `attempt < config.MaxRetries-1` in natural numbers. -/
theorem lt_MaxRetries_pred_iff (cfg : RetryConfig) (a : Nat) :
    (a : Int) < cfg.MaxRetries - 1 ↔ a + 1 < cfg.MaxRetries.toNat := by
  omega

/-- The loop entered at attempt `a`, when the calls `a..k-1` fail and call `k`
succeeds within the allowed attempts: it returns nil after call `k`, having
slept after each failed call. -/
theorem retryLoop_success (oor : Float64 → Int) (cfg : RetryConfig) (outs : Nat → Option GoError)
    (k : Nat) (hk : k < cfg.MaxRetries.toNat) (hsucc : outs k = none) :
    ∀ (fuel a : Nat) (lastErr : Option GoError), a ≤ k → k - a < fuel →
      (∀ j, a ≤ j → j < k → outs j ≠ none) →
      ∃ r, retryLoop oor cfg (seqOp outs) fuel a lastErr a = some r ∧ r.err = none ∧
        r.state = k + 1 ∧ r.calls = k - a + 1 ∧
        r.sleeps = (List.range' a (k - a)).map (backoffDelay oor cfg) := by
  intro fuel
  induction fuel with
  | zero => intro a lastErr _ h; omega
  | succ fuel ih =>
    intro a lastErr hak hfuel hfail
    have ha : a < cfg.MaxRetries.toNat := lt_of_le_of_lt hak hk
    rcases Nat.eq_or_lt_of_le hak with rfl | hlt
    · refine ⟨⟨none, a + 1, [.invoked none]⟩, ?_, rfl, rfl, ?_, ?_⟩
      · simp [retryLoop, lt_MaxRetries_iff, ha, seqOp, hsucc]
      · simp [RetryRun.calls]
      · simp [RetryRun.sleeps]
    · obtain ⟨err, herr⟩ := Option.ne_none_iff_exists'.mp (hfail a le_rfl hlt)
      obtain ⟨r, hr, hr1, hr2, hr3, hr4⟩ :=
        ih (a + 1) (some err) hlt (by omega) (fun j hj1 hj2 => hfail j (by omega) hj2)
      have hs : a + 1 < cfg.MaxRetries.toNat := lt_of_le_of_lt hlt hk
      refine ⟨{ r with trace := .invoked (some err) ::
          ([.slept (backoffDelay oor cfg a)] ++ r.trace) }, ?_, hr1, hr2, ?_, ?_⟩
      · simp [retryLoop, lt_MaxRetries_iff, lt_MaxRetries_pred_iff, ha, hs, seqOp, herr, hr]
      · simp only [RetryRun.calls] at hr3 ⊢
        simp [List.countP_cons, hr3]
        omega
      · simp only [RetryRun.sleeps] at hr4 ⊢
        have : k - a = (k - (a + 1)) + 1 := by omega
        rw [this, List.range'_succ]
        simp [List.filterMap_cons, hr4]

/-- The loop entered at attempt `a`, when every allowed call fails: it runs
until the attempts are used up, sleeps after each failed call but the last,
and returns the last error. -/
theorem retryLoop_exhausted (oor : Float64 → Int) (cfg : RetryConfig)
    (outs : Nat → Option GoError)
    (hfail : ∀ j : Nat, j < cfg.MaxRetries.toNat → outs j ≠ none) :
    ∀ (fuel a : Nat) (lastErr : Option GoError), cfg.MaxRetries.toNat - a ≤ fuel →
      ∃ r, retryLoop oor cfg (seqOp outs) fuel a lastErr a = some r ∧
        r.err = (if a < cfg.MaxRetries.toNat then outs (cfg.MaxRetries.toNat - 1) else lastErr) ∧
        r.state = max a cfg.MaxRetries.toNat ∧ r.calls = cfg.MaxRetries.toNat - a ∧
        r.sleeps = (List.range' a (cfg.MaxRetries.toNat - 1 - a)).map (backoffDelay oor cfg) := by
  intro fuel
  induction fuel with
  | zero =>
    intro a lastErr hfuel
    have ha : ¬ a < cfg.MaxRetries.toNat := by omega
    refine ⟨⟨lastErr, a, []⟩, ?_, ?_, ?_, ?_, ?_⟩
    · simp [retryLoop, lt_MaxRetries_iff, ha]
    · simp [ha]
    · simp; omega
    · simp [RetryRun.calls]; omega
    · have : cfg.MaxRetries.toNat - 1 - a = 0 := by omega
      simp [RetryRun.sleeps, this]
  | succ fuel ih =>
    intro a lastErr hfuel
    by_cases ha : a < cfg.MaxRetries.toNat
    · obtain ⟨err, herr⟩ := Option.ne_none_iff_exists'.mp (hfail a ha)
      obtain ⟨r, hr, hr1, hr2, hr3, hr4⟩ := ih (a + 1) (some err) (by omega)
      by_cases hs : a + 1 < cfg.MaxRetries.toNat
      · refine ⟨{ r with trace := .invoked (some err) ::
            ([.slept (backoffDelay oor cfg a)] ++ r.trace) }, ?_, ?_, ?_, ?_, ?_⟩
        · simp [retryLoop, lt_MaxRetries_iff, lt_MaxRetries_pred_iff, ha, hs, seqOp, herr, hr]
        · simp [hr1, ha, hs]
        · simp [hr2]; omega
        · simp only [RetryRun.calls] at hr3 ⊢
          simp [List.countP_cons, hr3]
          omega
        · simp only [RetryRun.sleeps] at hr4 ⊢
          have : cfg.MaxRetries.toNat - 1 - a = (cfg.MaxRetries.toNat - 1 - (a + 1)) + 1 := by
            omega
          rw [this, List.range'_succ]
          simp [List.filterMap_cons, hr4]
      · have hlast : cfg.MaxRetries.toNat - 1 = a := by omega
        refine ⟨{ r with trace := .invoked (some err) :: ([] ++ r.trace) }, ?_, ?_, ?_, ?_, ?_⟩
        · simp [retryLoop, lt_MaxRetries_iff, lt_MaxRetries_pred_iff, ha, hs, seqOp, herr, hr]
        · simp [hr1, ha, hs, hlast, herr]
        · simp [hr2]; omega
        · simp only [RetryRun.calls] at hr3 ⊢
          simp [List.countP_cons, hr3]
          omega
        · simp only [RetryRun.sleeps] at hr4 ⊢
          have h0 : cfg.MaxRetries.toNat - 1 - a = 0 := by omega
          have h1 : cfg.MaxRetries.toNat - 1 - (a + 1) = 0 := by omega
          rw [h1] at hr4
          simp [List.filterMap_cons, hr4, h0]
    · refine ⟨⟨lastErr, a, []⟩, ?_, ?_, ?_, ?_, ?_⟩
      · simp [retryLoop, lt_MaxRetries_iff, ha]
      · simp [ha]
      · simp; omega
      · simp [RetryRun.calls]; omega
      · have : cfg.MaxRetries.toNat - 1 - a = 0 := by omega
        simp [RetryRun.sleeps, this]

/-- The loop returns whenever the fuel covers the attempts that are left. -/
theorem retryLoop_returns {σ : Type} (oor : Float64 → Int) (cfg : RetryConfig)
    (fn : σ → Option GoError × σ) :
    ∀ (fuel a : Nat) (lastErr : Option GoError) (st : σ), cfg.MaxRetries.toNat - a ≤ fuel →
      (retryLoop oor cfg fn fuel a lastErr st).isSome = true := by
  intro fuel
  induction fuel with
  | zero =>
    intro a lastErr st h
    have ha : ¬ a < cfg.MaxRetries.toNat := by omega
    simp [retryLoop, lt_MaxRetries_iff, ha]
  | succ fuel ih =>
    intro a lastErr st h
    by_cases ha : a < cfg.MaxRetries.toNat
    · rcases hfn : fn st with ⟨_ | err, st1⟩
      · simp [retryLoop, lt_MaxRetries_iff, ha, hfn]
      · have := ih (a + 1) (some err) st1 (by omega)
        simp [retryLoop, lt_MaxRetries_iff, ha, hfn, this]
    · simp [retryLoop, lt_MaxRetries_iff, ha]

/-- RetryWithBackoff returns for every configuration and every operation. -/
theorem RetryWithBackoff_returns {σ : Type} (oor : Float64 → Int) (cfg : RetryConfig)
    (fn : σ → Option GoError × σ) (st : σ) :
    (RetryWithBackoff oor cfg fn st).isSome = true :=
  retryLoop_returns oor cfg fn _ 0 none st (by omega)

/-- Every sleep of the loop is at most `MaxDelay`, for every operation. -/
theorem retryLoop_sleeps_le {σ : Type} (oor : Float64 → Int) (cfg : RetryConfig)
    (fn : σ → Option GoError × σ) :
    ∀ (fuel a : Nat) (lastErr : Option GoError) (st : σ) (r : RetryRun σ),
      retryLoop oor cfg fn fuel a lastErr st = some r → ∀ d ∈ r.sleeps, d ≤ cfg.MaxDelay := by
  intro fuel
  induction fuel with
  | zero =>
    intro a lastErr st r h d hd
    by_cases ha : a < cfg.MaxRetries.toNat
    · simp [retryLoop, lt_MaxRetries_iff, ha] at h
    · simp [retryLoop, lt_MaxRetries_iff, ha] at h
      subst h
      simp [RetryRun.sleeps] at hd
  | succ fuel ih =>
    intro a lastErr st r h d hd
    by_cases ha : a < cfg.MaxRetries.toNat
    · rcases hfn : fn st with ⟨_ | err, st1⟩
      · simp [retryLoop, lt_MaxRetries_iff, ha, hfn] at h
        subst h
        simp [RetryRun.sleeps] at hd
      · simp only [retryLoop, lt_MaxRetries_iff, ha, hfn, if_true, Option.map_eq_some'] at h
        obtain ⟨r1, hr1, rfl⟩ := h
        have ih1 := ih (a + 1) (some err) st1 r1 hr1
        simp only [RetryRun.sleeps] at ih1 hd
        by_cases hs : a + 1 < cfg.MaxRetries.toNat
        · simp [lt_MaxRetries_pred_iff, hs, List.filterMap_cons] at hd
          rcases hd with rfl | hd
          · exact backoffDelay_le oor cfg a
          · obtain ⟨ev, hev, hevd⟩ := hd
            exact ih1 d (by simp; exact ⟨ev, hev, hevd⟩)
        · simp [lt_MaxRetries_pred_iff, hs, List.filterMap_cons] at hd
          obtain ⟨ev, hev, hevd⟩ := hd
          exact ih1 d (by simp; exact ⟨ev, hev, hevd⟩)
    · simp [retryLoop, lt_MaxRetries_iff, ha] at h
      subst h
      simp [RetryRun.sleeps] at hd

/-- C6: for every retry configuration with `MaxRetries ≥ 1` and every
operation given by the sequence `outs` of its outcomes.  When the first
success is call number `k` (after `k` failures) and `k < MaxRetries`,
`RetryWithBackoff` returns nil at once, after `k + 1 = min(k+1, MaxRetries)`
calls.  When none of the first `MaxRetries` calls succeeds, it makes exactly
`MaxRetries` calls, which is `min(k+1, MaxRetries)` for every `k ≥ MaxRetries`,
and returns the error of the last one. -/
theorem RetryWithBackoff_attempts (oor : Float64 → Int) (cfg : RetryConfig)
    (hM : 1 ≤ cfg.MaxRetries) (outs : Nat → Option GoError) :
    (∀ k : Nat, (∀ j, j < k → outs j ≠ none) → outs k = none → (k : Int) < cfg.MaxRetries →
      ∃ r, RetryWithBackoff oor cfg (seqOp outs) 0 = some r ∧ r.err = none ∧
        r.calls = min (k + 1) cfg.MaxRetries.toNat ∧ r.calls = k + 1 ∧ r.state = k + 1) ∧
    ((∀ j : Nat, (j : Int) < cfg.MaxRetries → outs j ≠ none) →
      ∃ r e, RetryWithBackoff oor cfg (seqOp outs) 0 = some r ∧
        outs (cfg.MaxRetries.toNat - 1) = some e ∧ r.err = some e ∧
        r.calls = cfg.MaxRetries.toNat ∧ r.state = cfg.MaxRetries.toNat ∧
        (∀ k : Nat, cfg.MaxRetries.toNat ≤ k → r.calls = min (k + 1) cfg.MaxRetries.toNat)) := by
  constructor
  · intro k hfail hsucc hk
    have hk1 : k < cfg.MaxRetries.toNat := (lt_MaxRetries_iff cfg k).mp hk
    obtain ⟨r, hr, h1, h2, h3, _⟩ :=
      retryLoop_success oor cfg outs k hk1 hsucc cfg.MaxRetries.toNat 0 none (Nat.zero_le k)
        (by omega) (fun j _ hj => hfail j hj)
    refine ⟨r, hr, h1, ?_, ?_, h2⟩
    · rw [h3]; omega
    · rw [h3]; omega
  · intro hfail
    have hfail1 : ∀ j : Nat, j < cfg.MaxRetries.toNat → outs j ≠ none :=
      fun j hj => hfail j ((lt_MaxRetries_iff cfg j).mpr hj)
    obtain ⟨r, hr, h1, h2, h3, _⟩ :=
      retryLoop_exhausted oor cfg outs hfail1 cfg.MaxRetries.toNat 0 none (by omega)
    have hpos : 0 < cfg.MaxRetries.toNat := by omega
    obtain ⟨e, he⟩ := Option.ne_none_iff_exists'.mp (hfail1 (cfg.MaxRetries.toNat - 1) (by omega))
    refine ⟨r, e, hr, he, ?_, ?_, ?_, ?_⟩
    · rw [h1, if_pos hpos, he]
    · rw [h3]; omega
    · rw [h2]; omega
    · intro k hk
      rw [h3]; omega

/-- Witness of C6: with `MaxRetries = 3`, the operation that always fails is
called exactly 3 times and the third error is returned; the operation that
fails twice and then succeeds is called 3 times and nil is returned. -/
theorem RetryWithBackoff_attempts_witness :
    (∃ r, RetryWithBackoff amd64OutOfRange ⟨3, 100000000, 1000000000⟩ (seqOp alwaysFail) 0
        = some r ∧ r.err = some "third error" ∧ r.calls = 3) ∧
    (∃ r, RetryWithBackoff amd64OutOfRange ⟨3, 100000000, 1000000000⟩ (seqOp failTwice) 0
        = some r ∧ r.err = none ∧ r.calls = 3) := by
  constructor
  · obtain ⟨r, e, hr, he, h1, h2, _⟩ :=
      (RetryWithBackoff_attempts amd64OutOfRange ⟨3, 100000000, 1000000000⟩ (by decide)
        alwaysFail).2 (fun j _ => by simp [alwaysFail])
    refine ⟨r, hr, ?_, h2⟩
    rw [h1, ← he]
    rfl
  · obtain ⟨r, hr, h1, _, h2, _⟩ :=
      (RetryWithBackoff_attempts amd64OutOfRange ⟨3, 100000000, 1000000000⟩ (by decide)
        failTwice).1 2 (fun j hj => by simp [failTwice, hj]) (by decide) (by decide)
    exact ⟨r, hr, h1, h2⟩

/-- C7 as stated fails: with `BaseDelay = 2^53 + 1` nanoseconds and
`MaxDelay = 2^62` nothing overflows, yet the sleep after the failed attempt 0
is `2^53` nanoseconds, while `min(BaseDelay * 2^0, MaxDelay)` is `2^53 + 1`:
`float64(BaseDelay)` has rounded the base delay. -/
theorem backoff_delay_rounds_large_base :
    (RetryWithBackoff amd64OutOfRange ⟨2, 9007199254740993, 4611686018427387904⟩
        (seqOp alwaysFail) 0).map RetryRun.sleeps = some [9007199254740992] ∧
    min ((9007199254740993 : Int) * 2 ^ 0) 4611686018427387904 = 9007199254740993 := by
  constructor
  · rfl
  · decide

/-- C7 amended: for every retry configuration whose `BaseDelay` is not
negative and is exactly representable as a `float64` (as every value up to
`2^53` nanoseconds is), and every operation given by the sequence of its
outcomes.  The delay after the failed attempt `i` is
`min(BaseDelay * 2^i, MaxDelay)` whenever nothing overflows (`i ≤ 1023` and
`BaseDelay * 2^i < 2^63`).  A run whose first success is call `k` sleeps after
each of the calls `0..k-1`; a run in which every allowed call fails sleeps
after each failed call but the last, `MaxRetries - 1` times (none when
`MaxRetries ≤ 1`); every sleep is at most `MaxDelay`. -/
theorem RetryWithBackoff_sleeps (oor : Float64 → Int) (cfg : RetryConfig)
    (hB : 0 ≤ cfg.BaseDelay) (hrep : roundToFloat64 cfg.BaseDelay = cfg.BaseDelay)
    (outs : Nat → Option GoError) :
    (∀ i : Nat, i ≤ 1023 → cfg.BaseDelay * 2 ^ i < 2 ^ 63 →
      backoffDelay oor cfg i = min (cfg.BaseDelay * 2 ^ i) cfg.MaxDelay) ∧
    (∀ k : Nat, (∀ j, j < k → outs j ≠ none) → outs k = none → (k : Int) < cfg.MaxRetries →
      ∃ r, RetryWithBackoff oor cfg (seqOp outs) 0 = some r ∧
        r.sleeps = (List.range k).map (backoffDelay oor cfg)) ∧
    ((∀ j : Nat, (j : Int) < cfg.MaxRetries → outs j ≠ none) →
      ∃ r, RetryWithBackoff oor cfg (seqOp outs) 0 = some r ∧
        r.sleeps = (List.range (cfg.MaxRetries.toNat - 1)).map (backoffDelay oor cfg) ∧
        r.sleeps.length = cfg.MaxRetries.toNat - 1) ∧
    (∀ r, RetryWithBackoff oor cfg (seqOp outs) 0 = some r → ∀ d ∈ r.sleeps, d ≤ cfg.MaxDelay) := by
  refine ⟨?_, ?_, ?_, ?_⟩
  · intro i hi hov
    exact backoffDelay_eq_min oor cfg hrep hB i hi hov
  · intro k hfail hsucc hk
    have hk1 : k < cfg.MaxRetries.toNat := (lt_MaxRetries_iff cfg k).mp hk
    obtain ⟨r, hr, _, _, _, h4⟩ :=
      retryLoop_success oor cfg outs k hk1 hsucc cfg.MaxRetries.toNat 0 none (Nat.zero_le k)
        (by omega) (fun j _ hj => hfail j hj)
    refine ⟨r, hr, ?_⟩
    rw [h4, List.range_eq_range']
    rfl
  · intro hfail
    have hfail1 : ∀ j : Nat, j < cfg.MaxRetries.toNat → outs j ≠ none :=
      fun j hj => hfail j ((lt_MaxRetries_iff cfg j).mpr hj)
    obtain ⟨r, hr, _, _, _, h4⟩ :=
      retryLoop_exhausted oor cfg outs hfail1 cfg.MaxRetries.toNat 0 none (by omega)
    have h5 : r.sleeps = (List.range (cfg.MaxRetries.toNat - 1)).map (backoffDelay oor cfg) := by
      rw [h4, List.range_eq_range']
      rfl
    refine ⟨r, hr, h5, ?_⟩
    rw [h5]
    simp
  · intro r hr
    exact retryLoop_sleeps_le oor cfg (seqOp outs) _ 0 none 0 r hr

/-- Witness of C7 amended: with `MaxRetries = 3`, `BaseDelay = 100ms`,
`MaxDelay = 1s` and an operation that fails twice and then succeeds, the
sleeps are exactly 100ms and then 200ms. -/
theorem RetryWithBackoff_sleeps_witness :
    ∃ r, RetryWithBackoff amd64OutOfRange ⟨3, 100000000, 1000000000⟩ (seqOp failTwice) 0
        = some r ∧ r.sleeps = [100000000, 200000000] := by
  have h := RetryWithBackoff_sleeps amd64OutOfRange ⟨3, 100000000, 1000000000⟩ (by decide)
    (by decide) failTwice
  obtain ⟨r, hr, hs⟩ := h.2.1 2 (fun j hj => by simp [failTwice, hj]) (by decide) (by decide)
  refine ⟨r, hr, ?_⟩
  rw [hs]
  have h0 := h.1 0 (by decide) (by decide)
  have h1 := h.1 1 (by decide) (by decide)
  simp only [List.range, List.range.loop, List.map] at *
  rw [h0, h1]
  decide

end stalker

/-! ## The key order of the HLS server (`hls.go`) -/

namespace hls

/-- The `range` loop appends the keys of the catalog to `sortedChannels` in the
order of the loop. -/
theorem fillPlaylist_sortedChannels (chs : stalker.Catalog) :
    ∀ g : Globals, (fillPlaylist g chs).sortedChannels = g.sortedChannels ++ chs.map Prod.fst := by
  induction chs with
  | nil => intro g; simp [fillPlaylist]
  | cons e rest ih =>
    intro g
    obtain ⟨k, v⟩ := e
    simp [fillPlaylist, ih]

/-- After the `range` loop the channel table has an entry for a key exactly when
it had one before or the key is a key of the catalog. -/
theorem fillPlaylist_get_isSome (chs : stalker.Catalog) (k : String) :
    ∀ g : Globals, (GoMap.get (fillPlaylist g chs).playlist k).isSome = true ↔
      ((GoMap.get g.playlist k).isSome = true ∨ k ∈ chs.map Prod.fst) := by
  induction chs with
  | nil => intro g; simp [fillPlaylist]
  | cons e rest ih =>
    intro g
    obtain ⟨k1, v⟩ := e
    simp only [fillPlaylist, ih, List.map_cons, List.mem_cons]
    by_cases h : k1 = k
    · subst h
      simp [GoMap.get_set_self]
    · rw [GoMap.get_set_of_ne _ _ _ _ h]
      have : ¬ k = k1 := fun h1 => h h1.symm
      simp [this]

/-- The call `sort.Strings` reorders its argument. -/
theorem sortStrings_perm (a : List String) : (sortStrings a).Perm a :=
  List.perm_insertionSort _ a

/-- The result of `sort.Strings` is in ascending order of strings. -/
theorem sortStrings_sorted (a : List String) : (sortStrings a).Sorted (fun x y => x ≤ y) := by
  haveI : IsTotal String (fun x y => x.data ≤ y.data) := ⟨fun x y => le_total x.data y.data⟩
  haveI : IsTrans String (fun x y => x.data ≤ y.data) :=
    ⟨fun x y z h1 h2 => le_trans h1 h2⟩
  have h := List.sorted_insertionSort (fun x y : String => x.data ≤ y.data) a
  refine List.Pairwise.imp ?_ h
  intro x y hxy
  exact String.le_iff_toList_le.mpr hxy

/-- C11: for every channel catalog (a map: no key occurs twice), the key list
that `StartWithContext` builds is a permutation of the keys of the catalog,
has no duplicates and is in strictly ascending lexicographic order, and the
channel table has an entry for exactly the keys of the catalog. -/
theorem StartWithContext_key_order (g : Globals) (ctx : Nat) (chs : stalker.Catalog)
    (bind : String) (hkeys : (chs.map Prod.fst).Nodup) :
    (StartWithContext g ctx chs bind).sortedChannels.Perm (chs.map Prod.fst) ∧
    (StartWithContext g ctx chs bind).sortedChannels.Nodup ∧
    (StartWithContext g ctx chs bind).sortedChannels.Sorted (fun x y => x < y) ∧
    (∀ k, (GoMap.get (StartWithContext g ctx chs bind).playlist k).isSome = true ↔
      k ∈ chs.map Prod.fst) := by
  have hs : (StartWithContext g ctx chs bind).sortedChannels = sortStrings (chs.map Prod.fst) := by
    simp [StartWithContext, fillPlaylist_sortedChannels]
  have hperm := sortStrings_perm (chs.map Prod.fst)
  have hnodup : (sortStrings (chs.map Prod.fst)).Nodup := hperm.nodup_iff.mpr hkeys
  refine ⟨?_, ?_, ?_, ?_⟩
  · rw [hs]; exact hperm
  · rw [hs]; exact hnodup
  · rw [hs]; exact (sortStrings_sorted _).lt_of_le hnodup
  · intro k
    simp [StartWithContext, fillPlaylist_get_isSome, GoMap.get]

/-- Witness of C11: for a catalog whose loop order is `b`, `a`, `c` the key list
is `a`, `b`, `c`. -/
theorem StartWithContext_key_order_witness :
    ((StartWithContext ⟨[], []⟩ 0 catalogBAC "0.0.0.0:8001").sortedChannels.Sorted
        (fun x y => x < y) ∧
     ∀ k, (GoMap.get (StartWithContext ⟨[], []⟩ 0 catalogBAC "0.0.0.0:8001").playlist k).isSome
        = true ↔ k ∈ ["b", "a", "c"]) ∧
    (StartWithContext ⟨[], []⟩ 0 catalogBAC "0.0.0.0:8001").sortedChannels = ["a", "b", "c"] :=
  have h := StartWithContext_key_order ⟨[], []⟩ 0 catalogBAC "0.0.0.0:8001" (by decide)
  ⟨⟨h.2.2.1, h.2.2.2⟩, by decide⟩

end hls

/-! ## Config validation (`fs.go`) -/

namespace stalker

/-- What `[A-F0-9]{2}` matches at the head of a text. -/
theorem matchHexPair_eq_some (l rest : List Char) :
    matchHexPair l = some rest ↔
      ∃ a b, l = a :: b :: rest ∧ isUpperHexDigit a = true ∧ isUpperHexDigit b = true := by
  match l with
  | [] => simp [matchHexPair]
  | [a] => simp [matchHexPair]
  | a :: b :: t =>
    simp only [matchHexPair, Bool.and_eq_true, ite_eq_iff, reduceCtorEq, and_false, or_false,
      Option.some.injEq, List.cons.injEq]
    constructor
    · rintro ⟨⟨ha, hb⟩, rfl⟩
      exact ⟨a, b, ⟨rfl, rfl, rfl⟩, ha, hb⟩
    · rintro ⟨a1, b1, ⟨rfl, rfl, rfl⟩, ha, hb⟩
      exact ⟨⟨ha, hb⟩, rfl⟩

/-- What `:[A-F0-9]{2}` matches at the head of a text. -/
theorem matchColonHexPair_eq_some (l rest : List Char) :
    matchColonHexPair l = some rest ↔
      ∃ a b, l = ':' :: a :: b :: rest ∧ isUpperHexDigit a = true ∧ isUpperHexDigit b = true := by
  match l with
  | [] => simp [matchColonHexPair]
  | c :: t =>
    by_cases hc : c = ':'
    · subst hc
      simp [matchColonHexPair, matchHexPair_eq_some]
    · simp [matchColonHexPair, hc]

/-- The pattern of `regexMAC` matches when its six groups match one after the
other and nothing is left. -/
theorem regexMAC_eq_true_iff (s : String) :
    regexMAC s = true ↔
      ∃ r1 r2 r3 r4 r5, matchHexPair s.data = some r1 ∧ matchColonHexPair r1 = some r2 ∧
        matchColonHexPair r2 = some r3 ∧ matchColonHexPair r3 = some r4 ∧
        matchColonHexPair r4 = some r5 ∧ matchColonHexPair r5 = some [] := by
  unfold regexMAC
  constructor
  · intro h
    split at h
    · rename_i heq
      simp only [Option.bind_eq_some] at heq
      obtain ⟨r5, ⟨r4, ⟨r3, ⟨r2, ⟨r1, h1, h2⟩, h3⟩, h4⟩, h5⟩, h6⟩ := heq
      exact ⟨r1, r2, r3, r4, r5, h1, h2, h3, h4, h5, h6⟩
    · exact absurd h (by decide)
  · rintro ⟨r1, r2, r3, r4, r5, h1, h2, h3, h4, h5, h6⟩
    simp [h1, h2, h3, h4, h5, h6]

/-- The pattern of `regexMAC` matches exactly the texts that consist of six
groups of two hexadecimal digits separated by colons. -/
theorem regexMAC_iff_sixHexGroups (s : String) : regexMAC s = true ↔ SixHexGroups s := by
  rw [regexMAC_eq_true_iff]
  constructor
  · rintro ⟨r1, r2, r3, r4, r5, h1, h2, h3, h4, h5, h6⟩
    rw [matchHexPair_eq_some] at h1
    rw [matchColonHexPair_eq_some] at h2 h3 h4 h5 h6
    obtain ⟨a1, b1, e1, ha1, hb1⟩ := h1
    obtain ⟨a2, b2, e2, ha2, hb2⟩ := h2
    obtain ⟨a3, b3, e3, ha3, hb3⟩ := h3
    obtain ⟨a4, b4, e4, ha4, hb4⟩ := h4
    obtain ⟨a5, b5, e5, ha5, hb5⟩ := h5
    obtain ⟨a6, b6, e6, ha6, hb6⟩ := h6
    refine ⟨[[a1, b1], [a2, b2], [a3, b3], [a4, b4], [a5, b5], [a6, b6]], rfl, ?_, ?_⟩
    · intro g hg
      simp only [List.mem_cons, List.mem_singleton, List.not_mem_nil, or_false] at hg
      rcases hg with rfl | rfl | rfl | rfl | rfl | rfl <;> simp [*]
    · rw [e1, e2, e3, e4, e5, e6]
      rfl
  · rintro ⟨groups, hlen, hall, hs⟩
    match groups, hlen with
    | [g1, g2, g3, g4, g5, g6], _ =>
      have hg : ∀ g ∈ [g1, g2, g3, g4, g5, g6],
          ∃ a b, g = [a, b] ∧ isUpperHexDigit a = true ∧ isUpperHexDigit b = true := by
        intro g hg
        obtain ⟨hl, hc⟩ := hall g hg
        obtain ⟨a, b, rfl⟩ := List.length_eq_two.mp hl
        exact ⟨a, b, rfl, hc a (by simp), hc b (by simp)⟩
      obtain ⟨a1, b1, rfl, ha1, hb1⟩ := hg g1 (by simp)
      obtain ⟨a2, b2, rfl, ha2, hb2⟩ := hg g2 (by simp)
      obtain ⟨a3, b3, rfl, ha3, hb3⟩ := hg g3 (by simp)
      obtain ⟨a4, b4, rfl, ha4, hb4⟩ := hg g4 (by simp)
      obtain ⟨a5, b5, rfl, ha5, hb5⟩ := hg g5 (by simp)
      obtain ⟨a6, b6, rfl, ha6, hb6⟩ := hg g6 (by simp)
      have hs1 : s.data = [a1, b1, ':', a2, b2, ':', a3, b3, ':', a4, b4, ':', a5, b5, ':',
          a6, b6] := by
        rw [hs]; rfl
      refine ⟨[':', a2, b2, ':', a3, b3, ':', a4, b4, ':', a5, b5, ':', a6, b6],
        [':', a3, b3, ':', a4, b4, ':', a5, b5, ':', a6, b6],
        [':', a4, b4, ':', a5, b5, ':', a6, b6], [':', a5, b5, ':', a6, b6], [':', a6, b6],
        ?_, ?_, ?_, ?_, ?_, ?_⟩
      · rw [hs1, matchHexPair_eq_some]; exact ⟨a1, b1, rfl, ha1, hb1⟩
      · rw [matchColonHexPair_eq_some]; exact ⟨a2, b2, rfl, ha2, hb2⟩
      · rw [matchColonHexPair_eq_some]; exact ⟨a3, b3, rfl, ha3, hb3⟩
      · rw [matchColonHexPair_eq_some]; exact ⟨a4, b4, rfl, ha4, hb4⟩
      · rw [matchColonHexPair_eq_some]; exact ⟨a5, b5, rfl, ha5, hb5⟩
      · rw [matchColonHexPair_eq_some]; exact ⟨a6, b6, rfl, ha6, hb6⟩

/-- The error that `validateWithDefaults` returns: that of the first check that
fails, in the order of the source. -/
theorem validateWithDefaults_error (upperRune : Char → Char) (token : String) (c : Config) :
    (validateWithDefaults upperRune token c).1 =
      if c.Portal.Model = "" then some "empty model"
      else if c.Portal.SerialNumber = "" then some "empty serial number (sn)"
      else if c.Portal.DeviceID = "" then some "empty device_id"
      else if c.Portal.DeviceID2 = "" then some "empty device_id2"
      else if regexMAC (ToUpper upperRune c.Portal.MAC) = false then
        some ("invalid MAC \x27" ++ ToUpper upperRune c.Portal.MAC ++ "\x27")
      else if c.Portal.Location = "" then some "empty portal url"
      else if regexTimezone c.Portal.TimeZone = false then
        some ("invalid timezone \x27" ++ c.Portal.TimeZone ++ "\x27")
      else if c.HLS.Enabled = false ∧ c.Proxy.Enabled = false then some "no services enabled"
      else if c.HLS.Enabled = true ∧ c.HLS.Bind = "" then some "empty HLS bind"
      else if c.Proxy.Enabled = true ∧ c.Proxy.Bind = "" then some "empty proxy bind"
      else if c.Proxy.Rewrite = true ∧ c.HLS.Enabled = false then
        some "HLS service must be enabled for \x27proxy: rewrite\x27"
      else none := by
  unfold validateWithDefaults
  simp only
  by_cases h1 : c.Portal.Model = ""
  · simp only [h1, if_true]
  simp only [h1, if_false]
  by_cases h2 : c.Portal.SerialNumber = ""
  · simp only [h2, if_true]
  simp only [h2, if_false]
  by_cases h3 : c.Portal.DeviceID = ""
  · simp only [h3, if_true]
  simp only [h3, if_false]
  by_cases h4 : c.Portal.DeviceID2 = ""
  · simp only [h4, if_true]
  simp only [h4, if_false]
  cases h5 : regexMAC (ToUpper upperRune c.Portal.MAC)
  · simp
  simp only [Bool.not_true, Bool.false_eq_true, if_false, Bool.true_eq_false]
  by_cases h6 : c.Portal.Location = ""
  · simp only [h6, if_true]
  simp only [h6, if_false]
  cases h7 : regexTimezone c.Portal.TimeZone
  · simp
  simp only [Bool.not_true, Bool.false_eq_true, if_false, Bool.true_eq_false]
  cases h8 : c.HLS.Enabled <;> cases h9 : c.Proxy.Enabled <;> cases h10 : c.Proxy.Rewrite <;>
    by_cases h11 : c.HLS.Bind = "" <;> by_cases h12 : c.Proxy.Bind = "" <;> simp [h11, h12]

/-- The configurations that `validateWithDefaults` accepts: those that pass
every check. -/
theorem validateWithDefaults_accepts_iff (upperRune : Char → Char) (token : String) (c : Config) :
    (validateWithDefaults upperRune token c).1 = none ↔
      (c.Portal.Model ≠ "" ∧ c.Portal.SerialNumber ≠ "" ∧ c.Portal.DeviceID ≠ "" ∧
       c.Portal.DeviceID2 ≠ "" ∧ regexMAC (ToUpper upperRune c.Portal.MAC) = true ∧
       c.Portal.Location ≠ "" ∧ regexTimezone c.Portal.TimeZone = true ∧
       (c.HLS.Enabled = true ∨ c.Proxy.Enabled = true) ∧
       (c.HLS.Enabled = true → c.HLS.Bind ≠ "") ∧
       (c.Proxy.Enabled = true → c.Proxy.Bind ≠ "") ∧
       (c.Proxy.Rewrite = true → c.HLS.Enabled = true)) := by
  rw [validateWithDefaults_error]
  by_cases h1 : c.Portal.Model = ""
  · simp [h1]
  by_cases h2 : c.Portal.SerialNumber = ""
  · simp [h1, h2]
  by_cases h3 : c.Portal.DeviceID = ""
  · simp [h1, h2, h3]
  by_cases h4 : c.Portal.DeviceID2 = ""
  · simp [h1, h2, h3, h4]
  cases h5 : regexMAC (ToUpper upperRune c.Portal.MAC)
  · simp [h1, h2, h3, h4]
  by_cases h6 : c.Portal.Location = ""
  · simp [h1, h2, h3, h4, h6]
  cases h7 : regexTimezone c.Portal.TimeZone
  · simp [h1, h2, h3, h4, h6]
  simp only [h1, h2, h3, h4, h6, if_false, Bool.true_eq_false, ne_eq, not_false_eq_true,
    true_and]
  cases h8 : c.HLS.Enabled <;> cases h9 : c.Proxy.Enabled <;> cases h10 : c.Proxy.Rewrite <;>
    by_cases h11 : c.HLS.Bind = "" <;> by_cases h12 : c.Proxy.Bind = "" <;> simp [h11, h12]

/-- C12: for every configuration whose other fields pass validation,
`validateWithDefaults` returns nil exactly when the MAC, converted to upper
case, consists of six groups of two hexadecimal digits separated by colons;
otherwise it returns the error `invalid MAC` with the upper-case MAC in
quotes. -/
theorem validateWithDefaults_mac (upperRune : Char → Char) (token : String) (c : Config)
    (hModel : c.Portal.Model ≠ "") (hSN : c.Portal.SerialNumber ≠ "")
    (hD1 : c.Portal.DeviceID ≠ "") (hD2 : c.Portal.DeviceID2 ≠ "")
    (hLoc : c.Portal.Location ≠ "") (hTZ : regexTimezone c.Portal.TimeZone = true)
    (hServ : c.HLS.Enabled = true ∨ c.Proxy.Enabled = true)
    (hHB : c.HLS.Enabled = true → c.HLS.Bind ≠ "")
    (hPB : c.Proxy.Enabled = true → c.Proxy.Bind ≠ "")
    (hRW : c.Proxy.Rewrite = true → c.HLS.Enabled = true) :
    ((validateWithDefaults upperRune token c).1 = none ↔
      SixHexGroups (ToUpper upperRune c.Portal.MAC)) ∧
    (¬ SixHexGroups (ToUpper upperRune c.Portal.MAC) →
      (validateWithDefaults upperRune token c).1 =
        some ("invalid MAC \x27" ++ ToUpper upperRune c.Portal.MAC ++ "\x27")) := by
  constructor
  · rw [validateWithDefaults_accepts_iff, ← regexMAC_iff_sixHexGroups]
    exact ⟨fun h => h.2.2.2.2.1, fun h => ⟨hModel, hSN, hD1, hD2, h, hLoc, hTZ, hServ, hHB, hPB, hRW⟩⟩
  · intro h
    rw [← regexMAC_iff_sixHexGroups] at h
    simp [validateWithDefaults, hModel, hSN, hD1, hD2, h]

/-- Witness of C12: the MAC `00-1A-79-12-34-56` is rejected with the error
`invalid MAC`, the MAC `00:1A:79:12:34:56` is accepted. -/
theorem validateWithDefaults_mac_witness :
    (validateWithDefaults id "TOKEN"
        { sampleConfig with Portal := { sampleConfig.Portal with MAC := "00-1A-79-12-34-56" } }).1
      = some "invalid MAC \x2700-1A-79-12-34-56\x27" ∧
    (validateWithDefaults id "TOKEN"
        { sampleConfig with Portal := { sampleConfig.Portal with MAC := "00:1A:79:12:34:56" } }).1
      = none :=
  ⟨(validateWithDefaults_mac id "TOKEN"
      { sampleConfig with Portal := { sampleConfig.Portal with MAC := "00-1A-79-12-34-56" } }
      (by decide) (by decide) (by decide) (by decide) (by decide) (by decide) (by decide)
      (by decide) (by decide) (by decide)).2
      (fun h => absurd ((regexMAC_iff_sixHexGroups _).mpr h) (by decide)),
   (validateWithDefaults_mac id "TOKEN"
      { sampleConfig with Portal := { sampleConfig.Portal with MAC := "00:1A:79:12:34:56" } }
      (by decide) (by decide) (by decide) (by decide) (by decide) (by decide) (by decide)
      (by decide) (by decide) (by decide)).1.mpr
      ((regexMAC_iff_sixHexGroups _).mp (by decide))⟩

/-- C13 as stated fails: a configuration with the watchdog interval 0 is
accepted and the interval held afterwards is 0, which is below 2. -/
theorem watchdog_zero_stays_zero :
    (validateWithDefaults id "TOKEN"
        { sampleConfig with Portal := { sampleConfig.Portal with WatchDogTime := 0 } }).1 = none ∧
    (validateWithDefaults id "TOKEN"
        { sampleConfig with Portal := { sampleConfig.Portal with WatchDogTime := 0 } }).2.Portal.WatchDogTime
      = 0 := by
  constructor <;> decide

/-- C13 amended: for every configuration that `validateWithDefaults` accepts,
the watchdog interval held afterwards is the input interval, except that the
input 1 becomes 2: an input of 1 becomes 2, an input of 2 or more is left
unchanged, and so the interval is at least 2 whenever the input is at least
1 (an input of 0 or below is left as it is). -/
theorem validateWithDefaults_watchdog (upperRune : Char → Char) (token : String) (c : Config)
    (h : (validateWithDefaults upperRune token c).1 = none) :
    (validateWithDefaults upperRune token c).2.Portal.WatchDogTime =
      (if c.Portal.WatchDogTime = 1 then 2 else c.Portal.WatchDogTime) ∧
    (c.Portal.WatchDogTime = 1 →
      (validateWithDefaults upperRune token c).2.Portal.WatchDogTime = 2) ∧
    (2 ≤ c.Portal.WatchDogTime →
      (validateWithDefaults upperRune token c).2.Portal.WatchDogTime = c.Portal.WatchDogTime) ∧
    (1 ≤ c.Portal.WatchDogTime →
      2 ≤ (validateWithDefaults upperRune token c).2.Portal.WatchDogTime) := by
  have hw : (validateWithDefaults upperRune token c).2.Portal.WatchDogTime =
      (if c.Portal.WatchDogTime = 1 then 2 else c.Portal.WatchDogTime) := by
    have hacc := (validateWithDefaults_accepts_iff upperRune token c).mp h
    obtain ⟨h1, h2, h3, h4, h5, h6, h7, h8, h9, h10, h11⟩ := hacc
    unfold validateWithDefaults
    simp only [h1, h2, h3, h4, h5, h6, h7, Bool.not_true, Bool.false_eq_true, if_false]
    have e8 : (!c.HLS.Enabled && !c.Proxy.Enabled) = false := by
      rcases h8 with h | h <;> simp [h]
    have e9 : ¬ ((c.HLS.Enabled = true) ∧ c.HLS.Bind = "") := fun hh => h9 hh.1 hh.2
    have e10 : ¬ ((c.Proxy.Enabled = true) ∧ c.Proxy.Bind = "") := fun hh => h10 hh.1 hh.2
    have e11 : (c.Proxy.Rewrite && !c.HLS.Enabled) = false := by
      cases hr : c.Proxy.Rewrite
      · simp
      · simp [h11 hr]
    simp only [e8, e11, Bool.false_eq_true, if_false, Bool.and_eq_true, decide_eq_true_eq, e9,
      e10]
    by_cases ht : c.Portal.Token = "" <;> by_cases hwd : c.Portal.WatchDogTime = 1 <;>
      simp [ht, hwd]
  refine ⟨hw, ?_, ?_, ?_⟩
  · intro h1
    rw [hw, if_pos h1]
  · intro h2
    rw [hw, if_neg (by omega)]
  · intro h1
    rw [hw]
    split_ifs <;> omega

/-- Witness of C13 amended: the watchdog interval 1 becomes 2. -/
theorem validateWithDefaults_watchdog_witness :
    (validateWithDefaults id "TOKEN"
        { sampleConfig with Portal := { sampleConfig.Portal with WatchDogTime := 1 } }).2.Portal.WatchDogTime
      = 2 :=
  (validateWithDefaults_watchdog id "TOKEN"
    { sampleConfig with Portal := { sampleConfig.Portal with WatchDogTime := 1 } }
    (by decide)).2.1 rfl

/-- For every configuration whose `Portal` pointer is not nil,
`validateWithDefaults` returns an error when the HLS and the proxy service are
both disabled, and when proxy rewrite is enabled while the HLS service is
disabled. -/
theorem validateWithDefaults_service_flags (upperRune : Char → Char) (token : String)
    (c : Config) :
    (c.HLS.Enabled = false → c.Proxy.Enabled = false →
      (validateWithDefaults upperRune token c).1.isSome = true) ∧
    (c.Proxy.Rewrite = true → c.HLS.Enabled = false →
      (validateWithDefaults upperRune token c).1.isSome = true) := by
  constructor
  · intro h1 h2
    rw [Option.isSome_iff_ne_none]
    intro h
    have := (validateWithDefaults_accepts_iff upperRune token c).mp h
    simp_all
  · intro h1 h2
    rw [Option.isSome_iff_ne_none]
    intro h
    have := (validateWithDefaults_accepts_iff upperRune token c).mp h
    simp_all

/-- The sample configuration with both services disabled, and with rewrite
enabled and HLS disabled, is rejected. -/
theorem validateWithDefaults_service_flags_witness :
    (validateWithDefaults id "TOKEN"
        { sampleConfig with HLS := ⟨false, ""⟩, Proxy := ⟨false, "", false⟩ }).1.isSome = true ∧
    (validateWithDefaults id "TOKEN"
        { sampleConfig with HLS := ⟨false, ""⟩ }).1.isSome = true :=
  ⟨(validateWithDefaults_service_flags id "TOKEN"
      { sampleConfig with HLS := ⟨false, ""⟩, Proxy := ⟨false, "", false⟩ }).1 rfl rfl,
   (validateWithDefaults_service_flags id "TOKEN"
      { sampleConfig with HLS := ⟨false, ""⟩ }).2 rfl rfl⟩

/-- With both pointers set, the method on a receiver that may be nil ends by
returning what `validateWithDefaults` returns, and leaves the configuration
that `validateWithDefaults` leaves. -/
theorem Nilable_validateWithDefaults_of_portal (upperRune : Char → Char) (token : String)
    (portal : Portal) (hls : HLSConfig) (proxy : ProxyConfig) :
    Config.Nilable.validateWithDefaults upperRune token
        (some { Portal := some portal, HLS := hls, Proxy := proxy }) =
      (.returned
        (validateWithDefaults upperRune token { Portal := portal, HLS := hls, Proxy := proxy }).1,
       some
        { Portal := some
            (validateWithDefaults upperRune token
              { Portal := portal, HLS := hls, Proxy := proxy }).2.Portal,
          HLS :=
            (validateWithDefaults upperRune token
              { Portal := portal, HLS := hls, Proxy := proxy }).2.HLS,
          Proxy :=
            (validateWithDefaults upperRune token
              { Portal := portal, HLS := hls, Proxy := proxy }).2.Proxy }) :=
  rfl

/-- Without `portal` section the method panics at its first statement,
whatever the service flags, and changes nothing. -/
theorem Nilable_validateWithDefaults_nil_portal (upperRune : Char → Char) (token : String)
    (hls : HLSConfig) (proxy : ProxyConfig) :
    Config.Nilable.validateWithDefaults upperRune token
        (some { Portal := none, HLS := hls, Proxy := proxy }) =
      (.panicked nilDereference, some { Portal := none, HLS := hls, Proxy := proxy }) :=
  rfl

/-- C14, at the failing input: for a configuration without `portal` section,
`validateWithDefaults` does not return an error when the HLS and the proxy
service are both disabled, nor when proxy rewrite is enabled while the HLS
service is disabled: it panics with a nil pointer dereference; with the portal
section of the sample configuration both inputs return the error of the
service check. -/
theorem validateWithDefaults_panics_without_portal :
    noPortalBothDisabled.HLS.Enabled = false ∧ noPortalBothDisabled.Proxy.Enabled = false ∧
    Config.Nilable.validateWithDefaults id "TOKEN" (some noPortalBothDisabled) =
      (.panicked "runtime error: invalid memory address or nil pointer dereference",
       some noPortalBothDisabled) ∧
    noPortalRewrite.Proxy.Rewrite = true ∧ noPortalRewrite.HLS.Enabled = false ∧
    Config.Nilable.validateWithDefaults id "TOKEN" (some noPortalRewrite) =
      (.panicked "runtime error: invalid memory address or nil pointer dereference",
       some noPortalRewrite) ∧
    (Config.Nilable.validateWithDefaults id "TOKEN"
        (some { noPortalBothDisabled with Portal := some sampleConfig.Portal })).1 =
      .returned (some "no services enabled") ∧
    (Config.Nilable.validateWithDefaults id "TOKEN"
        (some { noPortalRewrite with Portal := some sampleConfig.Portal })).1 =
      .returned (some "HLS service must be enabled for \x27proxy: rewrite\x27") := by
  refine ⟨?_, ?_, ?_, ?_, ?_, ?_, ?_, ?_⟩ <;> decide

/-- C15: for every configuration that is otherwise valid (MAC, timezone,
service flags and bind addresses), `validateWithDefaults` returns nil exactly
when none of model, serial number, device_id, device_id2 and portal URL is
empty; the signature, the username and the password have no influence on the
returned error. -/
theorem validateWithDefaults_required_fields (upperRune : Char → Char) (token : String)
    (c : Config) (hMAC : SixHexGroups (ToUpper upperRune c.Portal.MAC))
    (hTZ : regexTimezone c.Portal.TimeZone = true)
    (hServ : c.HLS.Enabled = true ∨ c.Proxy.Enabled = true)
    (hHB : c.HLS.Enabled = true → c.HLS.Bind ≠ "")
    (hPB : c.Proxy.Enabled = true → c.Proxy.Bind ≠ "")
    (hRW : c.Proxy.Rewrite = true → c.HLS.Enabled = true) :
    ((validateWithDefaults upperRune token c).1 = none ↔
      (c.Portal.Model ≠ "" ∧ c.Portal.SerialNumber ≠ "" ∧ c.Portal.DeviceID ≠ "" ∧
       c.Portal.DeviceID2 ≠ "" ∧ c.Portal.Location ≠ "")) ∧
    (∀ signature username password : String,
      (validateWithDefaults upperRune token
        { c with Portal := { c.Portal with
            Signature := signature, Username := username, Password := password } }).1 =
      (validateWithDefaults upperRune token c).1) := by
  constructor
  · rw [validateWithDefaults_accepts_iff]
    rw [← regexMAC_iff_sixHexGroups] at hMAC
    exact ⟨fun h => ⟨h.1, h.2.1, h.2.2.1, h.2.2.2.1, h.2.2.2.2.2.1⟩,
      fun h => ⟨h.1, h.2.1, h.2.2.1, h.2.2.2.1, hMAC, h.2.2.2.2, hTZ, hServ, hHB, hPB, hRW⟩⟩
  · intro signature username password
    rw [validateWithDefaults_error, validateWithDefaults_error]

/-- Witness of C15: the sample configuration with an empty signature is
accepted, with an empty model it is rejected. -/
theorem validateWithDefaults_required_fields_witness :
    (validateWithDefaults id "TOKEN"
        { sampleConfig with Portal := { sampleConfig.Portal with Signature := "" } }).1 = none ∧
    (validateWithDefaults id "TOKEN"
        { sampleConfig with Portal := { sampleConfig.Portal with Model := "" } }).1 ≠ none :=
  ⟨(validateWithDefaults_required_fields id "TOKEN"
      { sampleConfig with Portal := { sampleConfig.Portal with Signature := "" } }
      ((regexMAC_iff_sixHexGroups _).mp (by decide)) (by decide) (by decide) (by decide)
      (by decide) (by decide)).1.mpr (by decide),
   fun h => ((validateWithDefaults_required_fields id "TOKEN"
      { sampleConfig with Portal := { sampleConfig.Portal with Model := "" } }
      ((regexMAC_iff_sixHexGroups _).mp (by decide)) (by decide) (by decide) (by decide)
      (by decide) (by decide)).1.mp h).1 rfl⟩

end stalker

/-! ## The status table, the runner registry and shutdown -/

namespace GoMap
variable {κ α : Type} [DecidableEq κ]

/-- The lookup after the assignment `m[k] = v`. -/
theorem get_set (m : GoMap κ α) (k j : κ) (v : α) :
    get (set m k v) j = if k = j then some v else get m j := by
  by_cases h : k = j
  · subst h
    simp [get_set_self]
  · simp [h, get_set_of_ne _ _ _ _ h]

end GoMap

namespace webui

/-- C16, at the failing input: for the profile with the MAC
`00-1A-79-12-34-56`, which `regexMAC` does not match, `StartProfileServices`
calls `Start` with that MAC: the message of the error that `Start` returns
becomes the status message, and when `Start` and `RetrieveChannels` succeed
the profile ends in phase `success`, running, not in a configuration error. -/
theorem StartProfileServices_starts_with_malformed_mac :
    stalker.regexMAC dashMacProfile.MAC = false ∧
    GetProfileStatus
        (StartProfileServices (fun q => (q, none)) (fun q => (q, .ok catalogA)) State.init
          dashMacProfile) 1 =
      { ID := 1, Name := "home", Phase := "success", Message := "Verified", Channels := 1,
        HLS := "", Proxy := "", Running := true } ∧
    (GetProfileStatus
        (StartProfileServices (fun q => (q, some ("Start was called with MAC " ++ q.MAC)))
          (fun q => (q, .ok catalogA)) State.init dashMacProfile) 1).Message =
      "Start was called with MAC 00-1A-79-12-34-56" := by
  refine ⟨?_, ?_, ?_⟩ <;> decide

/-- A call that writes the status table stores one of the four phases. -/
theorem StatusCall_run_phases (s : State) (call : StatusCall)
    (h : ∀ id st, GoMap.get s.pstate id = some st →
      st.Phase ∈ ["idle", "validating", "success", "error"]) :
    ∀ id st, GoMap.get (StatusCall.run s call).pstate id = some st →
      st.Phase ∈ ["idle", "validating", "success", "error"] := by
  intro id st hst
  cases call with
  | validating i name msg =>
    simp only [StatusCall.run, SetProfileValidating, GoMap.get_set] at hst
    split_ifs at hst with hi
    · cases hst; simp
    · exact h id st hst
  | error i name msg =>
    simp only [StatusCall.run, SetProfileError, GoMap.get_set] at hst
    split_ifs at hst with hi
    · cases hst; simp
    · exact h id st hst
  | success i name channels hls proxy running =>
    simp only [StatusCall.run, SetProfileSuccess, GoMap.get_set] at hst
    split_ifs at hst with hi
    · cases hst; simp
    · exact h id st hst
  | stopped i =>
    simp only [StatusCall.run, SetProfileStopped, GoMap.get_set] at hst
    split_ifs at hst with hi
    · cases hst; simp
    · exact h id st hst

/-- A call that writes the status of one id leaves the entry of another id as
it is. -/
theorem StatusCall_run_other (s : State) (call : StatusCall) (id : Int) (h : call.id ≠ id) :
    GoMap.get (StatusCall.run s call).pstate id = GoMap.get s.pstate id := by
  cases call <;>
    simp only [StatusCall.id] at h <;>
    simp [StatusCall.run, SetProfileValidating, SetProfileError, SetProfileSuccess,
      SetProfileStopped, GoMap.get_set_of_ne _ _ _ _ h]

/-- C17: in every state reached from an empty status table by a sequence of
calls of `SetProfileValidating`, `SetProfileError`, `SetProfileSuccess` and
`SetProfileStopped`, the phase that `GetProfileStatus` reports for any id is
one of `idle`, `validating`, `success`, `error`; for an id that no call has
written it is `idle`, not running. -/
theorem status_phase_reachable (s0 : State) (h0 : s0.pstate = []) (calls : List StatusCall)
    (id : Int) :
    (GetProfileStatus (calls.foldl StatusCall.run s0) id).Phase ∈
      ["idle", "validating", "success", "error"] ∧
    ((∀ call ∈ calls, call.id ≠ id) →
      (GetProfileStatus (calls.foldl StatusCall.run s0) id).Phase = "idle" ∧
      (GetProfileStatus (calls.foldl StatusCall.run s0) id).Running = false) := by
  have hinv : ∀ (calls : List StatusCall) (s : State),
      (∀ id st, GoMap.get s.pstate id = some st →
        st.Phase ∈ ["idle", "validating", "success", "error"]) →
      ∀ id st, GoMap.get (calls.foldl StatusCall.run s).pstate id = some st →
        st.Phase ∈ ["idle", "validating", "success", "error"] := by
    intro calls
    induction calls with
    | nil => intro s h; exact h
    | cons call rest ih =>
      intro s h
      exact ih (StatusCall.run s call) (StatusCall_run_phases s call h)
  have hframe : ∀ (calls : List StatusCall) (s : State), (∀ call ∈ calls, call.id ≠ id) →
      GoMap.get (calls.foldl StatusCall.run s).pstate id = GoMap.get s.pstate id := by
    intro calls
    induction calls with
    | nil => intro s _; rfl
    | cons call rest ih =>
      intro s h
      rw [List.foldl_cons, ih _ (fun c hc => h c (List.mem_cons_of_mem _ hc)),
        StatusCall_run_other s call id (h call (List.mem_cons_self _ _))]
  constructor
  · have h := hinv calls s0 (by intro id st hst; simp [h0, GoMap.get] at hst) id
    unfold GetProfileStatus
    cases hg : GoMap.get (calls.foldl StatusCall.run s0).pstate id with
    | none => simp
    | some st => exact h st hg
  · intro hnever
    have hg := hframe calls s0 hnever
    rw [h0] at hg
    simp [GetProfileStatus, hg, GoMap.get]

/-- Witness of C17: after `SetProfileValidating(1)` and `SetProfileStopped(1)`
the phase of id 1 is one of the four and id 2, never written, is `idle`. -/
theorem status_phase_reachable_witness :
    (GetProfileStatus
      ([StatusCall.validating 1 "home" "Connecting...", StatusCall.stopped 1].foldl
        StatusCall.run State.init) 1).Phase ∈ ["idle", "validating", "success", "error"] ∧
    (GetProfileStatus
      ([StatusCall.validating 1 "home" "Connecting...", StatusCall.stopped 1].foldl
        StatusCall.run State.init) 2).Phase = "idle" :=
  have h1 := status_phase_reachable State.init rfl
    [StatusCall.validating 1 "home" "Connecting...", StatusCall.stopped 1] 1
  have h2 := status_phase_reachable State.init rfl
    [StatusCall.validating 1 "home" "Connecting...", StatusCall.stopped 1] 2
  ⟨h1.1, (h2.2 (by decide)).1⟩

/-- C18: for every state in which the profile `id` is in phase `success` and a
cancel handle is registered for it, the stop operation invokes that handle
exactly once and leaves the profile in phase `idle`, not running, with its
id, name, channel count and links unchanged and no handle registered; a
second stop operation invokes nothing and leaves the status as it is. -/
theorem profilesStop_running_profile (s : State) (id : Int) (r : runner)
    (hphase : (GetProfileStatus s id).Phase = "success")
    (hr : GoMap.get s.runners id = some r) :
    (profilesStop s id).cancelCalls = s.cancelCalls ++ [r.cancel] ∧
    (profilesStop s id).cancelCalls.count r.cancel = s.cancelCalls.count r.cancel + 1 ∧
    GetProfileStatus (profilesStop s id) id =
      { GetProfileStatus s id with Phase := "idle", Message := "Stopped", Running := false } ∧
    IsRunning (profilesStop s id) id = false ∧
    (profilesStop (profilesStop s id) id).cancelCalls = (profilesStop s id).cancelCalls ∧
    GetProfileStatus (profilesStop (profilesStop s id) id) id =
      GetProfileStatus (profilesStop s id) id := by
  have hstop : StopRunner s id =
      (none, { s with runners := GoMap.delete s.runners id,
                      cancelCalls := s.cancelCalls ++ [r.cancel] }) := by
    simp [StopRunner, hr]
  obtain ⟨st, hst⟩ : ∃ st, GoMap.get s.pstate id = some st := by
    cases hg : GoMap.get s.pstate id with
    | none =>
      simp [GetProfileStatus, hg] at hphase
    | some st => exact ⟨st, rfl⟩
  have h1 : profilesStop s id =
      { s with runners := GoMap.delete s.runners id,
               cancelCalls := s.cancelCalls ++ [r.cancel],
               pstate := GoMap.set s.pstate id
                 { st with Phase := "idle", Message := "Stopped", Running := false } } := by
    simp [profilesStop, hstop, SetProfileStopped, pstateAt, hst]
  have h2 : StopRunner (profilesStop s id) id = (some "runner not found", profilesStop s id) := by
    simp [StopRunner, h1, GoMap.get_delete_self]
  refine ⟨?_, ?_, ?_, ?_, ?_, ?_⟩
  · rw [h1]
  · rw [h1]
    simp [List.count_append]
  · rw [h1]
    simp [GetProfileStatus, hst, GoMap.get_set_self]
  · rw [h1]
    simp [IsRunning, GoMap.get_delete_self]
  · conv_lhs => rw [profilesStop, h2]
    simp [SetProfileStopped]
  · conv_lhs => rw [profilesStop, h2]
    rw [h1]
    simp [SetProfileStopped, GetProfileStatus, pstateAt, GoMap.get_set_self]

/-- Witness of C18: stopping the sample profile after it was started invokes
its handle once and leaves it in phase `idle` with name and channel count
kept. -/
theorem profilesStop_running_profile_witness :
    (profilesStop
      (StartProfileServices (fun q => (q, none)) (fun q => (q, .ok catalogA)) State.init
        sampleProfile) 1).cancelCalls = [0] ∧
    GetProfileStatus
      (profilesStop
        (StartProfileServices (fun q => (q, none)) (fun q => (q, .ok catalogA)) State.init
          sampleProfile) 1) 1 =
      { ID := 1, Name := "home", Phase := "idle", Message := "Stopped", Channels := 1,
        HLS := "", Proxy := "", Running := false } :=
  have h := profilesStop_running_profile
    (StartProfileServices (fun q => (q, none)) (fun q => (q, .ok catalogA)) State.init
      sampleProfile) 1 ⟨0⟩ (by decide) (by decide)
  ⟨h.1, h.2.2.1⟩

/-- How one call of `RegisterRunner` or `StopRunner` changes `IsRunning(id)`. -/
theorem RunnerCall_run_isRunning (s : State) (call : RunnerCall) (id : Int) :
    IsRunning (RunnerCall.run s call) id =
      match call with
      | .register i _ => if i = id then true else IsRunning s id
      | .stop i => if i = id then false else IsRunning s id := by
  cases call with
  | register i cancel =>
    simp only [RunnerCall.run, RegisterRunner, IsRunning, GoMap.get_set]
    split_ifs <;> simp
  | stop i =>
    simp only [RunnerCall.run, StopRunner, IsRunning]
    cases h : GoMap.get s.runners i with
    | none =>
      by_cases hi : i = id
      · subst hi
        simp [h]
      · simp [hi]
    | some r =>
      by_cases hi : i = id
      · subst hi
        simp [GoMap.get_delete_self]
      · simp [hi, GoMap.get_delete_of_ne _ _ _ hi]

/-- C19: for every registry state and id, `StopRunner(id)` returns an error
exactly when no handle is registered for `id`; then the state is unchanged
(nothing is invoked); otherwise it returns nil, invokes the handle registered
for `id` and nothing else, removes it, and `IsRunning(id)` is false
afterwards.  `RegisterRunner(id)` makes `IsRunning(id)` true, and after any
sequence of calls `IsRunning(id)` says whether a handle has been registered
for `id` and not yet stopped. -/
theorem StopRunner_spec (s : State) (id : Int) :
    ((StopRunner s id).1.isSome = true ↔ GoMap.get s.runners id = none) ∧
    (GoMap.get s.runners id = none → StopRunner s id = (some "runner not found", s)) ∧
    (∀ r, GoMap.get s.runners id = some r →
      (StopRunner s id).1 = none ∧
      (StopRunner s id).2.cancelCalls = s.cancelCalls ++ [r.cancel] ∧
      (StopRunner s id).2.runners = GoMap.delete s.runners id ∧
      IsRunning (StopRunner s id).2 id = false) ∧
    (∀ cancel, IsRunning (RegisterRunner s id cancel) id = true) ∧
    (∀ calls : List RunnerCall,
      IsRunning (calls.foldl RunnerCall.run s) id =
        registeredNotStopped (IsRunning s id) calls id) := by
  refine ⟨?_, ?_, ?_, ?_, ?_⟩
  · cases h : GoMap.get s.runners id <;> simp [StopRunner, h]
  · intro h
    simp [StopRunner, h]
  · intro r h
    simp [StopRunner, h, IsRunning, GoMap.get_delete_self]
  · intro cancel
    simp [RegisterRunner, IsRunning, GoMap.get_set_self]
  · intro calls
    induction calls generalizing s with
    | nil => rfl
    | cons call rest ih =>
      rw [List.foldl_cons, ih, RunnerCall_run_isRunning]
      cases call <;> rfl

/-- Witness of C19: `StopRunner(1)` on the empty registry returns the error and
changes nothing; after register and stop id 1 is not running; after register,
stop, register it is running. -/
theorem StopRunner_spec_witness :
    StopRunner State.init 1 = (some "runner not found", State.init) ∧
    IsRunning (StopRunner (RegisterRunner State.init 1 0) 1).2 1 = false ∧
    IsRunning
      ([RunnerCall.register 1 0, RunnerCall.stop 1, RunnerCall.register 1 1].foldl
        RunnerCall.run State.init) 1 = true :=
  ⟨(StopRunner_spec State.init 1).2.1 rfl,
   ((StopRunner_spec (RegisterRunner State.init 1 0) 1).2.2.1 ⟨0⟩ (by decide)).2.2.2,
   ((StopRunner_spec State.init 1).2.2.2.2
      [RunnerCall.register 1 0, RunnerCall.stop 1, RunnerCall.register 1 1]).trans (by decide)⟩

end webui

namespace cmd

/-- C20, at the failing input: with one saved profile that starts, the only
cancel function `main` calls on shutdown is that of its own context; the
context of `main` is done, but the context handed to the HLS and the proxy
server of the profile is not, the profile is still registered as running, and
both servers are still serving when `main` returns. -/
theorem main_cancel_leaves_profile_servers :
    (main (fun q => (q, none)) (fun q => (q, .ok catalogA)) [sampleProfile]).cancelCalls
      = [cancel] ∧
    ctx.done (main (fun q => (q, none)) (fun q => (q, .ok catalogA)) [sampleProfile]).cancelCalls
      = true ∧
    webui.IsRunning (main (fun q => (q, none)) (fun q => (q, .ok catalogA)) [sampleProfile]) 1
      = true ∧
    (webui.profileContext 1).done
      (main (fun q => (q, none)) (fun q => (q, .ok catalogA)) [sampleProfile]).cancelCalls
      = false ∧
    (webui.stillServing
      (main (fun q => (q, none)) (fun q => (q, .ok catalogA)) [sampleProfile])).map
        webui.Goroutine.context = [webui.profileContext 1, webui.profileContext 1] := by
  refine ⟨?_, ?_, ?_, ?_, ?_⟩ <;> decide

/-- The call `cancel()` of `main` does not change whether the context of a
profile is done: that context is a child of the background context, not of
the context of `main`. -/
theorem main_cancel_keeps_profile_context (cancelCalls : List webui.CancelFunc)
    (pCancel : webui.CancelFunc) (h : pCancel ≠ cancel) :
    (webui.profileContext pCancel).done (cancelCalls ++ [cancel]) =
      (webui.profileContext pCancel).done cancelCalls := by
  simp [webui.profileContext, webui.Context.done, h]

end cmd

namespace strings

/-- `ToLower` of a concatenation is the concatenation of the `ToLower`s. -/
theorem ToLower_append (lowerRune : Char → Char) (x y : String) :
    ToLower lowerRune (x ++ y) = ToLower lowerRune x ++ ToLower lowerRune y := by
  apply String.ext
  simp [ToLower, String.data_append]

/-- A string ends with what was appended to it. -/
theorem HasSuffix_append_self (x y : String) : HasSuffix (x ++ y) y = true := by
  simp [HasSuffix, String.data_append]

/-- A string starts with what it was built from on the left. -/
theorem HasPrefix_append_self (x y : String) : HasPrefix (x ++ y) x = true := by
  simp [HasPrefix, String.data_append]

/-- The lower-cased `x ++ "/portal.php"` ends with `/portal.php`. -/
theorem HasSuffix_ToLower_portal (lowerRune : Char → Char) (x : String) :
    HasSuffix (ToLower lowerRune (x ++ "/portal.php")) "/portal.php" = true := by
  rw [ToLower_append]
  have h : ToLower lowerRune "/portal.php" = "/portal.php" := rfl
  rw [h]
  exact HasSuffix_append_self _ _

/-- Appending `portal.php` to a string that ends with `/` gives a string
that ends with `/portal.php`. -/
theorem HasSuffix_slash_append (x : String) (h : HasSuffix x "/" = true) :
    ∃ y : String, x ++ "portal.php" = y ++ "/portal.php" := by
  simp only [HasSuffix, List.isSuffixOf_iff_suffix] at h
  obtain ⟨t, ht⟩ := h
  refine ⟨String.mk t, ?_⟩
  apply String.ext
  simp only [String.data_append, ← ht]
  simp

end strings

namespace webui
open strings

/-- The last `if` of the path rewrite of `normalizePortalURL` leaves a path
whose lower-cased form ends with `/portal.php`, whatever the path before it. -/
theorem normalizePortalURL_path_last_step (lowerRune : Char → Char) (path3 : String) :
    HasSuffix
      (ToLower lowerRune
        (if (!HasSuffix (ToLower lowerRune path3) "/portal.php") = true then
          if HasSuffix path3 "/" = true then path3 ++ "portal.php"
          else TrimRight path3 '/' ++ "/portal.php"
        else path3)) "/portal.php" = true := by
  cases h : HasSuffix (ToLower lowerRune path3) "/portal.php"
  · simp only [Bool.not_false, if_true]
    by_cases h2 : HasSuffix path3 "/" = true
    · rw [if_pos h2]
      obtain ⟨y, hy⟩ := HasSuffix_slash_append _ h2
      rw [hy]
      exact HasSuffix_ToLower_portal _ _
    · rw [if_neg h2]
      exact HasSuffix_ToLower_portal _ _
  · simpa using h

/-- The path that `normalizePortalURL` stores ends with `/portal.php`,
without regard to case. -/
theorem normalizePortalURL_path_suffix (lowerRune : Char → Char) (uPath : String) :
    HasSuffix (ToLower lowerRune (normalizePortalURL.path lowerRune uPath)) "/portal.php"
      = true := by
  unfold normalizePortalURL.path
  exact normalizePortalURL_path_last_step lowerRune _

/-- The text handed to `url.Parse` starts with `http://` or `https://`,
without regard to case. -/
theorem normalizePortalURL_withScheme_start (lowerRune : Char → Char) (s : String) :
    HasPrefix (ToLower lowerRune (normalizePortalURL.withScheme lowerRune s)) "http://" = true ∨
    HasPrefix (ToLower lowerRune (normalizePortalURL.withScheme lowerRune s)) "https://" = true := by
  unfold normalizePortalURL.withScheme
  cases h1 : HasPrefix (ToLower lowerRune s) "http://"
  · cases h2 : HasPrefix (ToLower lowerRune s) "https://"
    · left
      simp only [Bool.not_false, Bool.and_self, if_true]
      rw [ToLower_append]
      have h : ToLower lowerRune "http://" = "http://" := rfl
      rw [h]
      exact HasPrefix_append_self _ _
    · right
      simpa using h2
  · left
    simpa using h1

/-- C21: `normalizePortalURL` returns the empty string for blank input; for
non-blank input the text it parses starts, without regard to case, with
`http://` or `https://`, and is `http://` followed by the trimmed input when
the trimmed input starts with neither; and when that text parses to `u`, the
result is the string of `u` with its path replaced by a path that ends,
without regard to case, with `/portal.php`. -/
theorem normalizePortalURL_result (lowerRune : Char → Char)
    (parse : String → Except GoError url.URL) (urlString : url.URL → String) (input : String) :
    (TrimSpace input = "" → normalizePortalURL lowerRune parse urlString input = "") ∧
    (TrimSpace input ≠ "" →
      (HasPrefix (ToLower lowerRune
          (normalizePortalURL.withScheme lowerRune (TrimSpace input))) "http://" = true ∨
       HasPrefix (ToLower lowerRune
          (normalizePortalURL.withScheme lowerRune (TrimSpace input))) "https://" = true) ∧
      (HasPrefix (ToLower lowerRune (TrimSpace input)) "http://" = false →
        HasPrefix (ToLower lowerRune (TrimSpace input)) "https://" = false →
        normalizePortalURL.withScheme lowerRune (TrimSpace input) = "http://" ++ TrimSpace input) ∧
      (∀ u, parse (normalizePortalURL.withScheme lowerRune (TrimSpace input)) = .ok u →
        normalizePortalURL lowerRune parse urlString input =
          urlString { u with Path := normalizePortalURL.path lowerRune u.Path } ∧
        HasSuffix (ToLower lowerRune (normalizePortalURL.path lowerRune u.Path))
          "/portal.php" = true)) := by
  refine ⟨?_, ?_⟩
  · intro h
    simp [normalizePortalURL, h]
  · intro h
    refine ⟨normalizePortalURL_withScheme_start _ _, ?_, ?_⟩
    · intro h1 h2
      simp [normalizePortalURL.withScheme, h1, h2]
    · intro u hu
      refine ⟨?_, normalizePortalURL_path_suffix _ _⟩
      simp only [normalizePortalURL, h, if_false, hu]

/-- Witness of C21: three blanks give the empty string, and
` example.com/c/ ` gives `http://example.com/c/portal.php`. -/
theorem normalizePortalURL_result_witness :
    normalizePortalURL id plainParse plainString "   " = "" ∧
    normalizePortalURL id plainParse plainString " example.com/c/ " =
      "http://example.com/c/portal.php" :=
  ⟨(normalizePortalURL_result id plainParse plainString "   ").1 (by decide),
   (((normalizePortalURL_result id plainParse plainString " example.com/c/ ").2
      (by decide)).2.2 _ rfl).1.trans (by decide)⟩

/-- C22, at the failing input: for the path `/stalker_portal/server/LOAD.PHP`
(and for `Load.php`) `normalizePortalURL` keeps the file name and appends
`/portal.php` to it, while for `load.php` it replaces the file name; the path
rewrite of the dashboard script replaces the file name in both other casings. -/
theorem normalizePortalURL_keeps_uppercase_load_php :
    normalizePortalURL id plainParse plainString
        "http://example.com/stalker_portal/server/LOAD.PHP" =
      "http://example.com/stalker_portal/server/LOAD.PHP/portal.php" ∧
    normalizePortalURL id plainParse plainString
        "http://example.com/stalker_portal/server/Load.php" =
      "http://example.com/stalker_portal/server/Load.php/portal.php" ∧
    normalizePortalURL id plainParse plainString
        "http://example.com/stalker_portal/server/load.php" =
      "http://example.com/stalker_portal/server/portal.php" ∧
    normalizePortal.pathname "/stalker_portal/server/LOAD.PHP" =
      "/stalker_portal/server/portal.php" ∧
    normalizePortal.pathname "/stalker_portal/server/Load.php" =
      "/stalker_portal/server/portal.php" := by
  refine ⟨?_, ?_, ?_, ?_, ?_⟩ <;> decide

/-- For every trimmed path other than `/` that ends with `/load.php` in a
casing other than all lower case, the path rewrite of `normalizePortalURL`
keeps the whole path and appends `/portal.php`. -/
theorem normalizePortalURL_path_other_casing (lowerRune : Char → Char) (p : String)
    (htrim : TrimSpace p = p) (hne : p ≠ "") (hroot : p ≠ "/")
    (hlow : HasSuffix (ToLower lowerRune p) "/load.php" = true)
    (hcase : HasSuffix p "/load.php" = false) :
    normalizePortalURL.path lowerRune p = p ++ "/portal.php" := by
  have h1 : TrimSuffix p "/load.php" = p := by simp [TrimSuffix, hcase]
  have h2 := HasSuffix_ToLower_portal lowerRune p
  unfold normalizePortalURL.path
  simp only [htrim, hne, hroot, or_self, if_false, hlow, if_true, h1, h2, Bool.not_true,
    Bool.and_false, Bool.false_eq_true]

/-- For every directory `d`, the path rewrite of `normalizePortalURL` turns
`d ++ "/load.php"`, in lower case, into `d ++ "/portal.php"`. -/
theorem normalizePortalURL_path_lower_case (lowerRune : Char → Char) (d : String)
    (htrim : TrimSpace (d ++ "/load.php") = d ++ "/load.php") :
    normalizePortalURL.path lowerRune (d ++ "/load.php") = d ++ "/portal.php" := by
  have hl : ("/load.php" : String).data.length = 9 := rfl
  have hne : d ++ "/load.php" ≠ "" := by
    intro h
    have h0 := congrArg (fun t : String => t.data.length) h
    simp only [String.data_append, List.length_append, hl] at h0
    have h1 : ("" : String).data.length = 0 := rfl
    simp only [h1] at h0
    omega
  have hroot : d ++ "/load.php" ≠ "/" := by
    intro h
    have h0 := congrArg (fun t : String => t.data.length) h
    simp only [String.data_append, List.length_append, hl] at h0
    have h1 : ("/" : String).data.length = 1 := rfl
    simp only [h1] at h0
    omega
  have hlow : HasSuffix (ToLower lowerRune (d ++ "/load.php")) "/load.php" = true := by
    rw [ToLower_append]
    have h : ToLower lowerRune "/load.php" = "/load.php" := rfl
    rw [h]
    exact HasSuffix_append_self _ _
  have h1 : TrimSuffix (d ++ "/load.php") "/load.php" = d := by
    simp only [TrimSuffix, HasSuffix_append_self, if_true]
    apply String.ext
    simp [String.data_append]
  have h2 := HasSuffix_ToLower_portal lowerRune d
  unfold normalizePortalURL.path
  simp only [htrim, hne, hroot, or_self, if_false, hlow, if_true, h1, h2, Bool.not_true,
    Bool.and_false, Bool.false_eq_true]

end webui

namespace webui

/-- Below the largest `int`, the increment is the successor. -/
theorem intSucc_of_lt (n : Int) (h : n < 2 ^ 63 - 1) : intSucc n = n + 1 := by
  unfold intSucc
  rw [if_neg (by omega)]

/-- The counter loop of `LoadProfiles` ends at or above its start and above
every loaded id, when no loaded id is the largest `int`. -/
theorem loadCounter_spec (arr : List Profile) (h : ∀ p ∈ arr, p.ID < 2 ^ 63 - 1) :
    ∀ next : Int,
      next ≤ arr.foldl (fun next p => if p.ID ≥ next then intSucc p.ID else next) next ∧
      ∀ p ∈ arr,
        p.ID < arr.foldl (fun next p => if p.ID ≥ next then intSucc p.ID else next) next := by
  induction arr with
  | nil => intro next; simp
  | cons q rest ih =>
    intro next
    have hq : q.ID < 2 ^ 63 - 1 := h q (List.mem_cons_self _ _)
    have ih1 := ih (fun p hp => h p (List.mem_cons_of_mem _ hp))
      (if q.ID ≥ next then intSucc q.ID else next)
    simp only [List.foldl_cons]
    have hstep : next ≤ (if q.ID ≥ next then intSucc q.ID else next) ∧
        q.ID < (if q.ID ≥ next then intSucc q.ID else next) := by
      split_ifs with hge
      · rw [intSucc_of_lt _ hq]; omega
      · omega
    refine ⟨le_trans hstep.1 ih1.1, ?_⟩
    intro p hp
    rcases List.mem_cons.mp hp with rfl | hp
    · exact lt_of_lt_of_le hstep.2 ih1.1
    · exact ih1.2 p hp

/-- A call of `AddProfile`, `DeleteProfile` or `LoadProfiles` without
overflow keeps the counter at least 1 and above every id of the list. -/
theorem ProfileCall_run_invariant (s : State) (call : ProfileCall) (hno : call.noOverflow s)
    (h1 : 1 ≤ s.nextProfile) (h2 : ∀ p ∈ s.profiles, p.ID < s.nextProfile) :
    1 ≤ (call.run s).nextProfile ∧
    ∀ p ∈ (call.run s).profiles, p.ID < (call.run s).nextProfile := by
  cases call with
  | add q =>
    simp only [ProfileCall.noOverflow] at hno
    simp only [ProfileCall.run, AddProfile, intSucc_of_lt _ hno]
    refine ⟨by omega, ?_⟩
    intro p hp
    rcases List.mem_append.mp hp with hp | hp
    · have := h2 p hp
      omega
    · simp only [List.mem_singleton] at hp
      subst hp
      simp
  | delete id =>
    simp only [ProfileCall.run, DeleteProfile]
    exact ⟨h1, fun p hp => h2 p (List.mem_of_mem_filter hp)⟩
  | load loaded =>
    cases loaded with
    | error err => exact ⟨h1, h2⟩
    | ok arr =>
      simp only [ProfileCall.noOverflow] at hno
      simp only [ProfileCall.run, LoadProfiles]
      exact loadCounter_spec arr hno 1

/-- A sequence of calls without overflow keeps the counter at least 1 and
above every id of the list. -/
theorem reachable_invariant (calls : List ProfileCall) :
    ∀ s : State, noOverflowRun s calls → 1 ≤ s.nextProfile →
      (∀ p ∈ s.profiles, p.ID < s.nextProfile) →
      1 ≤ (calls.foldl ProfileCall.run s).nextProfile ∧
      ∀ p ∈ (calls.foldl ProfileCall.run s).profiles,
        p.ID < (calls.foldl ProfileCall.run s).nextProfile := by
  induction calls with
  | nil => intro s _ h1 h2; exact ⟨h1, h2⟩
  | cons call rest ih =>
    intro s hno h1 h2
    obtain ⟨hc, hrest⟩ := hno
    have hinv := ProfileCall_run_invariant s call hc h1 h2
    exact ih (call.run s) hrest hinv.1 hinv.2

/-- The ids that `AddProfile` returns in a sequence of calls without
`LoadProfiles` and without overflow are strictly increasing, and none is below
the counter at the start. -/
theorem returnedIDs_increasing (more : List ProfileCall) :
    ∀ s : State, (∀ c ∈ more, c.isLoad = false) → noOverflowRun s more →
      (returnedIDs s more).Sorted (fun a b => a < b) ∧
      ∀ id ∈ returnedIDs s more, s.nextProfile ≤ id := by
  induction more with
  | nil => intro s _ _; simp [returnedIDs]
  | cons call rest ih =>
    intro s hload hno
    obtain ⟨hc, hrest⟩ := hno
    have ih1 := ih (call.run s) (fun c hc => hload c (List.mem_cons_of_mem _ hc)) hrest
    cases call with
    | add q =>
      simp only [ProfileCall.noOverflow] at hc
      have hnext : (ProfileCall.run s (.add q)).nextProfile = s.nextProfile + 1 := by
        simp [ProfileCall.run, AddProfile, intSucc_of_lt _ hc]
      rw [hnext] at ih1
      simp only [returnedIDs, ProfileCall.returnedID, AddProfile, Option.toList_some,
        List.singleton_append, List.sorted_cons, List.mem_cons, forall_eq_or_imp, le_refl,
        true_and]
      refine ⟨⟨fun b hb => ?_, ih1.1⟩, fun b hb => ?_⟩
      · have := ih1.2 b hb
        omega
      · have := ih1.2 b hb
        omega
    | delete id =>
      simpa [returnedIDs, ProfileCall.returnedID, ProfileCall.run, DeleteProfile] using ih1
    | load loaded =>
      have := hload (.load loaded) (List.mem_cons_self _ _)
      simp [ProfileCall.isLoad] at this

/-- C24: in every state reached from the initial one by calls of
`AddProfile`, `DeleteProfile` and `LoadProfiles` without integer overflow, the
next-id counter is at least 1 and greater than every id of the list,
`AddProfile` returns an id that no profile of the list has, and the ids that
`AddProfile` returns in a continuation without `LoadProfiles` are strictly
increasing. -/
theorem nextProfile_above_ids (s0 : State) (hp0 : s0.profiles = []) (hn0 : s0.nextProfile = 1)
    (calls : List ProfileCall) (hno : noOverflowRun s0 calls) :
    1 ≤ (calls.foldl ProfileCall.run s0).nextProfile ∧
    (∀ p ∈ (calls.foldl ProfileCall.run s0).profiles,
      p.ID < (calls.foldl ProfileCall.run s0).nextProfile) ∧
    (∀ p : Profile, ∀ q ∈ (calls.foldl ProfileCall.run s0).profiles,
      q.ID ≠ (AddProfile (calls.foldl ProfileCall.run s0) p).1.ID) ∧
    (∀ more : List ProfileCall, (∀ c ∈ more, c.isLoad = false) →
      noOverflowRun (calls.foldl ProfileCall.run s0) more →
      (returnedIDs (calls.foldl ProfileCall.run s0) more).Sorted (fun a b => a < b)) := by
  have hinv := reachable_invariant calls s0 hno (by omega) (by simp [hp0])
  refine ⟨hinv.1, hinv.2, ?_, ?_⟩
  · intro p q hq
    have := hinv.2 q hq
    simp only [AddProfile]
    omega
  · intro more hload hmore
    exact (returnedIDs_increasing more _ hload hmore).1

/-- Witness of C24: after `AddProfile` and `DeleteProfile(1)` the next
`AddProfile` returns an id not in the list, and two further calls return
increasing ids. -/
theorem nextProfile_above_ids_witness :
    (∀ q ∈ ([ProfileCall.add sampleProfile, ProfileCall.delete 1].foldl ProfileCall.run
        State.init).profiles,
      q.ID ≠ (AddProfile ([ProfileCall.add sampleProfile, ProfileCall.delete 1].foldl
        ProfileCall.run State.init) sampleProfile).1.ID) ∧
    (returnedIDs ([ProfileCall.add sampleProfile, ProfileCall.delete 1].foldl ProfileCall.run
        State.init) [ProfileCall.add sampleProfile, ProfileCall.add sampleProfile]).Sorted
      (fun a b => a < b) :=
  have h := nextProfile_above_ids State.init rfl rfl
    [ProfileCall.add sampleProfile, ProfileCall.delete 1]
    ⟨(by unfold ProfileCall.noOverflow; decide), trivial, trivial⟩
  ⟨h.2.2.1 sampleProfile,
   h.2.2.2 [ProfileCall.add sampleProfile, ProfileCall.add sampleProfile] (by decide)
     ⟨(by unfold ProfileCall.noOverflow; decide), (by unfold ProfileCall.noOverflow; decide), trivial⟩⟩

/-- Counterexample of C23: after `LoadProfiles` of a file with the ids
`-2^63` and `2^63 - 1` the counter has wrapped around to `-2^63`; `AddProfile`
returns the profile `home` with the id `-2^63`, and `GetProfile` at that id
returns the older profile `first`. -/
theorem AddProfile_lookup_after_wraparound :
    (LoadProfiles (.ok extremeIDs) State.init).2.nextProfile = -2 ^ 63 ∧
    (AddProfile (LoadProfiles (.ok extremeIDs) State.init).2 sampleProfile).1.ID = -2 ^ 63 ∧
    (AddProfile (LoadProfiles (.ok extremeIDs) State.init).2 sampleProfile).1.Name = "home" ∧
    (GetProfile (AddProfile (LoadProfiles (.ok extremeIDs) State.init).2 sampleProfile).2
      (-2 ^ 63)).1.Name = "first" := by
  refine ⟨?_, ?_, ?_, ?_⟩ <;> decide

/-- C23, amended: in every state reached from the initial one by calls of
`AddProfile`, `DeleteProfile` and `LoadProfiles` without integer overflow,
`AddProfile(p)` returns `p` with only its id replaced, `ListProfiles` afterwards
is the previous list followed by the returned profile, and `GetProfile` at the
returned id returns that profile and `true`. -/
theorem AddProfile_appends (s0 : State) (hp0 : s0.profiles = []) (hn0 : s0.nextProfile = 1)
    (calls : List ProfileCall) (hno : noOverflowRun s0 calls) (p : Profile) :
    (AddProfile (calls.foldl ProfileCall.run s0) p).1 =
      { p with ID := (calls.foldl ProfileCall.run s0).nextProfile } ∧
    ListProfiles (AddProfile (calls.foldl ProfileCall.run s0) p).2 =
      ListProfiles (calls.foldl ProfileCall.run s0) ++
        [(AddProfile (calls.foldl ProfileCall.run s0) p).1] ∧
    GetProfile (AddProfile (calls.foldl ProfileCall.run s0) p).2
        (AddProfile (calls.foldl ProfileCall.run s0) p).1.ID =
      ((AddProfile (calls.foldl ProfileCall.run s0) p).1, true) := by
  have hinv := reachable_invariant calls s0 hno (by omega) (by simp [hp0])
  refine ⟨rfl, rfl, ?_⟩
  have hnone : (calls.foldl ProfileCall.run s0).profiles.find?
      (fun q => q.ID = (calls.foldl ProfileCall.run s0).nextProfile) = none := by
    rw [List.find?_eq_none]
    intro q hq
    have := hinv.2 q hq
    simp only [decide_eq_true_eq]
    omega
  simp [GetProfile, AddProfile, List.find?_append, hnone]

/-- Witness of C23, amended: after one `AddProfile`, a second one returns
its profile with id 2 and `GetProfile(2)` finds it. -/
theorem AddProfile_appends_witness :
    GetProfile (AddProfile ([ProfileCall.add sampleProfile].foldl ProfileCall.run State.init)
        dashMacProfile).2 2 =
      ({ dashMacProfile with ID := 2 }, true) :=
  (AddProfile_appends State.init rfl rfl [ProfileCall.add sampleProfile]
    ⟨(by unfold ProfileCall.noOverflow; decide), trivial⟩
    dashMacProfile).2.2

end webui

namespace stalker

/-- C25: when `MaxRetries` is at most zero, `RetryWithBackoff` returns nil
with the state of the operation unchanged: the operation is never invoked and
the function never sleeps. -/
theorem RetryWithBackoff_no_attempts {σ : Type} (oor : Float64 → Int) (cfg : RetryConfig)
    (hM : cfg.MaxRetries ≤ 0) (fn : σ → Option GoError × σ) (st : σ) :
    ∃ r, RetryWithBackoff oor cfg fn st = some r ∧ r.err = none ∧ r.state = st ∧
      r.trace = [] ∧ r.calls = 0 ∧ r.sleeps = [] := by
  have h0 : cfg.MaxRetries.toNat = 0 := by omega
  have hlt : ¬ ((0 : Nat) : Int) < cfg.MaxRetries := by omega
  refine ⟨⟨none, st, []⟩, ?_, rfl, rfl, rfl, rfl, rfl⟩
  unfold RetryWithBackoff
  rw [h0]
  unfold retryLoop
  rw [if_neg hlt]

/-- Witness of C25: with `MaxRetries` 0 and an operation that always fails,
`RetryWithBackoff` returns nil, and the call counter of the operation stays 0. -/
theorem RetryWithBackoff_no_attempts_witness :
    ∃ r, RetryWithBackoff amd64OutOfRange ⟨0, 100000000, 1000000000⟩ (seqOp alwaysFail) 0
      = some r ∧ r.err = none ∧ r.state = 0 ∧ r.sleeps = [] := by
  obtain ⟨r, h1, h2, h3, _, _, h6⟩ :=
    RetryWithBackoff_no_attempts amd64OutOfRange ⟨0, 100000000, 1000000000⟩ (by decide)
      (seqOp alwaysFail) 0
  exact ⟨r, h1, h2, h3, h6⟩

/-- A string that `regexTimezone` matches is letters, one slash, letters. -/
theorem regexTimezone_letters (s : String) (h : regexTimezone s = true) :
    LettersSlashLetters s := by
  unfold regexTimezone at h
  rw [List.span_eq_take_drop] at h
  have happ := List.takeWhile_append_dropWhile isAsciiLetter s.data
  cases hd : List.dropWhile isAsciiLetter s.data with
  | nil => simp [hd] at h
  | cons c location =>
    simp only [hd, Bool.and_eq_true, Bool.not_eq_true', decide_eq_true_eq, List.all_eq_true] at h
    obtain ⟨⟨⟨h1, h2⟩, h3⟩, h4⟩ := h
    refine ⟨List.takeWhile isAsciiLetter s.data, location, ?_, ?_, ?_, h4, ?_⟩
    · intro he
      simp [he] at h1
    · intro he
      simp [he] at h3
    · intro x hx
      exact List.mem_takeWhile_imp hx
    · rw [← h2, ← hd, happ]

/-- C26: `validateWithDefaults` accepts only a timezone that is one or more
letters, a slash and one or more letters; the configuration built for a
profile, and the one built for verification from `DefaultPortal`, both with the
timezone `UTC`, are rejected with the invalid-timezone error although the MAC
is valid and the URL is not empty, whatever the services. -/
theorem validateWithDefaults_timezone (upperRune : Char → Char) (token : String) :
    (∀ c : Config, (validateWithDefaults upperRune token c).1 = none →
      LettersSlashLetters c.Portal.TimeZone) ∧
    (∀ p : webui.Profile, SixHexGroups (ToUpper upperRune p.MAC) → p.PortalURL ≠ "" →
      (validateWithDefaults upperRune token (webui.profileConfig p)).1 =
        some "invalid timezone \x27UTC\x27") ∧
    (∀ (mac location : String) (hls : HLSConfig) (proxy : ProxyConfig),
      SixHexGroups (ToUpper upperRune mac) → location ≠ "" →
      (validateWithDefaults upperRune token
        { Portal := { webui.DefaultPortal with MAC := mac, Location := location },
          HLS := hls, Proxy := proxy }).1 = some "invalid timezone \x27UTC\x27") := by
  refine ⟨?_, ?_, ?_⟩
  · intro c h
    exact regexTimezone_letters _ ((validateWithDefaults_accepts_iff upperRune token c).mp h).2.2.2.2.2.2.1
  · intro p hmac hurl
    rw [← regexMAC_iff_sixHexGroups] at hmac
    rw [validateWithDefaults_error]
    have h1 : (webui.profileConfig p).Portal.MAC = p.MAC := rfl
    have h2 : (webui.profileConfig p).Portal.Location = p.PortalURL := rfl
    have h3 : (webui.profileConfig p).Portal.Model ≠ "" := by
      simp only [webui.profileConfig]; decide
    have h4 : (webui.profileConfig p).Portal.SerialNumber ≠ "" := by
      simp only [webui.profileConfig]; decide
    have h5 : (webui.profileConfig p).Portal.DeviceID ≠ "" := by
      simp only [webui.profileConfig]; decide
    have h6 : (webui.profileConfig p).Portal.DeviceID2 ≠ "" := by
      simp only [webui.profileConfig]; decide
    have h7 : regexTimezone "UTC" = false := by decide
    have h8 : (webui.profileConfig p).Portal.TimeZone = "UTC" := rfl
    simp only [h1, h2, hmac, hurl, h3, h4, h5, h6, h8, if_false, if_true,
      Bool.true_eq_false]
    rw [if_pos h7]
    rfl
  · intro mac location hls proxy hmac hurl
    rw [← regexMAC_iff_sixHexGroups] at hmac
    rw [validateWithDefaults_error]
    have h3 : webui.DefaultPortal.Model ≠ "" := by decide
    have h4 : webui.DefaultPortal.SerialNumber ≠ "" := by decide
    have h5 : webui.DefaultPortal.DeviceID ≠ "" := by decide
    have h6 : webui.DefaultPortal.DeviceID2 ≠ "" := by decide
    have h7 : regexTimezone "UTC" = false := by decide
    have h8 : webui.DefaultPortal.TimeZone = "UTC" := rfl
    simp only [hmac, hurl, h3, h4, h5, h6, h8, if_false, if_true, Bool.true_eq_false]
    rw [if_pos h7]
    rfl

/-- Witness of C26: the configuration of the sample profile is rejected for
its timezone, and the accepted sample configuration has a timezone of the
form letters, slash, letters. -/
theorem validateWithDefaults_timezone_witness :
    (validateWithDefaults id "TOKEN" (webui.profileConfig sampleProfile)).1 =
      some "invalid timezone \x27UTC\x27" ∧
    LettersSlashLetters sampleConfig.Portal.TimeZone :=
  have h := validateWithDefaults_timezone id "TOKEN"
  ⟨h.2.1 sampleProfile ((regexMAC_iff_sixHexGroups _).mp (by decide)) (by decide),
   h.1 sampleConfig (by decide)⟩

end stalker

namespace webui

/-- A call that writes the status table keeps: a running entry is in phase
`success` or `validating`. -/
theorem StatusCall_run_running (s : State) (call : StatusCall)
    (h : ∀ id st, GoMap.get s.pstate id = some st → st.Running = true →
      st.Phase = "success" ∨ st.Phase = "validating") :
    ∀ id st, GoMap.get (StatusCall.run s call).pstate id = some st → st.Running = true →
      st.Phase = "success" ∨ st.Phase = "validating" := by
  intro id st hst hr
  cases call with
  | validating i name msg =>
    simp only [StatusCall.run, SetProfileValidating, GoMap.get_set] at hst
    split_ifs at hst with hi
    · cases hst; exact Or.inr rfl
    · exact h id st hst hr
  | error i name msg =>
    simp only [StatusCall.run, SetProfileError, GoMap.get_set] at hst
    split_ifs at hst with hi
    · cases hst; simp at hr
    · exact h id st hst hr
  | success i name channels hls proxy running =>
    simp only [StatusCall.run, SetProfileSuccess, GoMap.get_set] at hst
    split_ifs at hst with hi
    · cases hst; exact Or.inl rfl
    · exact h id st hst hr
  | stopped i =>
    simp only [StatusCall.run, SetProfileStopped, GoMap.get_set] at hst
    split_ifs at hst with hi
    · cases hst; simp at hr
    · exact h id st hst hr

/-- A call of `AddProfile`, `DeleteProfile` or `LoadProfiles` leaves the
status table as it is. -/
theorem ProfileCall_run_pstate (s : State) (call : ProfileCall) :
    (ProfileCall.run s call).pstate = s.pstate := by
  cases call with
  | add p => rfl
  | delete id => rfl
  | load loaded =>
    cases loaded with
    | error e => rfl
    | ok arr => rfl

/-- When no running status is in phase `error`, the loop of the `/health`
handler adds at most one to the two counts together for each profile. -/
theorem healthLoop_bound (s : State)
    (h : ∀ id, (GetProfileStatus s id).Running = true → (GetProfileStatus s id).Phase ≠ "error")
    (ps : List Profile) (running errors : Nat) :
    (healthLoop s ps running errors).1 + (healthLoop s ps running errors).2 ≤
      running + errors + ps.length := by
  induction ps generalizing running errors with
  | nil => simp [healthLoop]
  | cons p rest ih =>
    simp only [healthLoop, List.length_cons]
    refine (ih _ _).trans ?_
    by_cases hr : (GetProfileStatus s p.ID).Running = true
    · have he := h p.ID hr
      rw [if_pos hr, if_neg he]
      omega
    · rw [if_neg hr]
      by_cases he : (GetProfileStatus s p.ID).Phase = "error"
      · rw [if_pos he]
        omega
      · rw [if_neg he]
        omega

/-- C27: in every state reached from an empty status table by the four
status setters, interleaved with calls that change the profile list, a status
that is running is in phase `success` or `validating`, and in the health report
the running count plus the error count is at most the profile count. -/
theorem running_phase_and_health_counts (s0 : State) (h0 : s0.pstate = [])
    (calls : List (StatusCall ⊕ ProfileCall)) :
    (∀ id,
      (GetProfileStatus
        (calls.foldl (fun s c => Sum.elim (StatusCall.run s) (ProfileCall.run s) c) s0)
        id).Running = true →
      (GetProfileStatus
        (calls.foldl (fun s c => Sum.elim (StatusCall.run s) (ProfileCall.run s) c) s0)
        id).Phase = "success" ∨
      (GetProfileStatus
        (calls.foldl (fun s c => Sum.elim (StatusCall.run s) (ProfileCall.run s) c) s0)
        id).Phase = "validating") ∧
    (healthCounts
      (calls.foldl (fun s c => Sum.elim (StatusCall.run s) (ProfileCall.run s) c) s0)).Running +
    (healthCounts
      (calls.foldl (fun s c => Sum.elim (StatusCall.run s) (ProfileCall.run s) c) s0)).Errors ≤
    (healthCounts
      (calls.foldl (fun s c => Sum.elim (StatusCall.run s) (ProfileCall.run s) c) s0)).Profiles := by
  have hinv : ∀ (calls : List (StatusCall ⊕ ProfileCall)) (s : State),
      (∀ id st, GoMap.get s.pstate id = some st → st.Running = true →
        st.Phase = "success" ∨ st.Phase = "validating") →
      ∀ id st,
        GoMap.get
          (calls.foldl (fun s c => Sum.elim (StatusCall.run s) (ProfileCall.run s) c) s).pstate
          id = some st →
        st.Running = true → st.Phase = "success" ∨ st.Phase = "validating" := by
    intro calls
    induction calls with
    | nil => intro s h; exact h
    | cons call rest ih =>
      intro s h
      rw [List.foldl_cons]
      apply ih
      cases call with
      | inl c => exact StatusCall_run_running s c h
      | inr c =>
        simp only [Sum.elim_inr, ProfileCall_run_pstate]
        exact h
  have hstart : ∀ id st, GoMap.get s0.pstate id = some st → st.Running = true →
      st.Phase = "success" ∨ st.Phase = "validating" := by
    intro id st hst
    rw [h0] at hst
    simp [GoMap.get] at hst
  have hphase : ∀ id,
      (GetProfileStatus
        (calls.foldl (fun s c => Sum.elim (StatusCall.run s) (ProfileCall.run s) c) s0)
        id).Running = true →
      (GetProfileStatus
        (calls.foldl (fun s c => Sum.elim (StatusCall.run s) (ProfileCall.run s) c) s0)
        id).Phase = "success" ∨
      (GetProfileStatus
        (calls.foldl (fun s c => Sum.elim (StatusCall.run s) (ProfileCall.run s) c) s0)
        id).Phase = "validating" := by
    intro id
    unfold GetProfileStatus
    cases hg : GoMap.get
        (calls.foldl (fun s c => Sum.elim (StatusCall.run s) (ProfileCall.run s) c) s0).pstate
        id with
    | none => intro hr; simp at hr
    | some st => exact hinv calls s0 hstart id st hg
  refine ⟨hphase, ?_⟩
  have hb := healthLoop_bound
    (calls.foldl (fun s c => Sum.elim (StatusCall.run s) (ProfileCall.run s) c) s0)
    (fun id hr => by
      rcases hphase id hr with h | h <;> rw [h] <;> decide)
    (ListProfiles (calls.foldl (fun s c => Sum.elim (StatusCall.run s) (ProfileCall.run s) c) s0))
    0 0
  simp only [healthCounts]
  omega

/-- Witness of C27: with two profiles, one running and one in error, the
report counts 2 profiles, 1 running and 1 error. -/
theorem running_phase_and_health_counts_witness :
    healthCounts
      ([Sum.inr (ProfileCall.add sampleProfile),
        Sum.inl (StatusCall.success 1 "home" 1 "" "" true),
        Sum.inr (ProfileCall.add sampleProfile),
        Sum.inl (StatusCall.error 2 "home" "connection refused")].foldl
        (fun s c => Sum.elim (StatusCall.run s) (ProfileCall.run s) c) State.init) =
      { Profiles := 2, Running := 1, Errors := 1 } ∧
    1 + 1 ≤ 2 := by
  have h := (running_phase_and_health_counts State.init rfl
      [Sum.inr (ProfileCall.add sampleProfile),
        Sum.inl (StatusCall.success 1 "home" 1 "" "" true),
        Sum.inr (ProfileCall.add sampleProfile),
        Sum.inl (StatusCall.error 2 "home" "connection refused")]).2
  exact ⟨by decide, h⟩

/-- C28: the delete operation removes from the list exactly the profiles
with the id, keeping the others in order, leaves the status of the id `idle`
and not running, and leaves the runner registry and the log of invoked cancel
functions unchanged, so that a profile that was running is still registered as
running. -/
theorem profilesDelete_keeps_runner (s : State) (id : Int) :
    ListProfiles (profilesDelete s id) = (ListProfiles s).filter (fun p => p.ID ≠ id) ∧
    (GetProfileStatus (profilesDelete s id) id).Phase = "idle" ∧
    (GetProfileStatus (profilesDelete s id) id).Running = false ∧
    (profilesDelete s id).runners = s.runners ∧
    (profilesDelete s id).cancelCalls = s.cancelCalls ∧
    (IsRunning s id = true → IsRunning (profilesDelete s id) id = true) := by
  refine ⟨rfl, ?_, ?_, rfl, rfl, fun h => h⟩
  · simp [profilesDelete, SetProfileStopped, GetProfileStatus, GoMap.get_set_self]
  · simp [profilesDelete, SetProfileStopped, GetProfileStatus, GoMap.get_set_self]

/-- Witness of C28: deleting the registered sample profile empties the list
and `IsRunning(1)` is still true. -/
theorem profilesDelete_keeps_runner_witness :
    IsRunning (profilesDelete (RegisterRunner (AddProfile State.init sampleProfile).2 1 7) 1) 1
      = true ∧
    ListProfiles (profilesDelete (RegisterRunner (AddProfile State.init sampleProfile).2 1 7) 1)
      = [] :=
  ⟨(profilesDelete_keeps_runner (RegisterRunner (AddProfile State.init sampleProfile).2 1 7)
      1).2.2.2.2.2 (by decide), by decide⟩

end webui

end Stalkerhek
